import Mathlib

/-!
# Infisical agent: token lifecycle, client-secret cache and sink fan-out

A shallow embedding of `cli/packages/cmd/agent.go`.

* `time.Duration` is an `Int` number of nanoseconds; arithmetic on it wraps at 64 bits
  (`wrap64`), and `Time.Sub` saturates as in the Go standard library.
* `time.Time` is an `Int` number of nanoseconds since the zero time, so `IsZero t` is `t = 0`.
* Go `int` is taken to be 64 bits wide.
* Everything outside the process (file system, remote identity service, clock) is explicit:
  the `World` carries the clock, the files and the trace of observable events, and an `Env`
  says what the remote service answers and how long calls take during one cycle.
* The mutex and the notification channel are not modelled; sending on the channel is the
  `Event.notify` entry of the trace.
-/

namespace Agent

/-! ## Durations and instants

A `time.Duration` and a `time.Time` are both plain integers (nanoseconds). -/

/-- Smallest value of a 64 bit signed integer. -/
def minInt64 : Int := -9223372036854775808

/-- Largest value of a 64 bit signed integer. -/
def maxInt64 : Int := 9223372036854775807

/-- Two-complement wrap-around of 64 bit signed arithmetic. -/
def wrap64 (x : Int) : Int :=
  (x + 9223372036854775808) % 18446744073709551616 - 9223372036854775808

/-- The constant `time.Second`, in nanoseconds. -/
def Second : Int := 1000000000

/-- Method `Time.IsZero`. -/
def Time.IsZero (t : Int) : Bool := decide (t = 0)

/-- Method `Time.Add`. -/
def Time.Add (t : Int) (d : Int) : Int := t + d

/-- Method `Time.After`: strictly later. -/
def Time.After (t u : Int) : Bool := decide (u < t)

/-- Method `Time.Sub`: the difference, saturated to the range of a `Duration`. -/
def Time.Sub (t u : Int) : Int :=
  if maxInt64 < t - u then maxInt64
  else if t - u < minInt64 then minInt64
  else t - u

/-! ## Data model -/

structure SinkDetails where
  Path : String
deriving DecidableEq

/-- A configured sink; the field `Type_` is the field `Type` of the source. -/
structure Sink where
  Type_ : String
  Config : SinkDetails
deriving DecidableEq

structure Template where
  SourcePath : String
  DestinationPath : String
deriving DecidableEq

/-- The fields of `TokenManager` (the mutex and the channel are left out). -/
structure TokenManager where
  accessToken : String
  accessTokenTTL : Int
  accessTokenMaxTTL : Int
  accessTokenFetchedTime : Int
  accessTokenRefreshedTime : Int
  filePaths : List Sink
  templates : List Template
  clientIdPath : String
  clientSecretPath : String
  removeClientSecretOnRead : Bool
  cachedClientSecret : String
deriving DecidableEq

/-- Modelled from the spec: `api.UniversalAuthLoginResponse` and the response type of the
refresh call are declared in package `api`, which is not among the sources; by the spec both
endpoints return `{accessToken, accessTokenTTL, accessTokenMaxTTL?}`, the TTLs in seconds. -/
structure UniversalAuthLoginResponse where
  AccessToken : String
  AccessTokenTTL : Int
  AccessTokenMaxTTL : Option Int
deriving DecidableEq

/-- Messages the lifecycle and the sink writer log. -/
inductive LogMsg where
  | attemptingToAuthenticate
  | unableToAuthenticate
  | reachedMaxTTL
  | attemptingToRefresh
  | unableToRefresh
  | unableToWriteSink (path : String)
  | savedToSink (path : String)
  | unsupportedSinkType
deriving DecidableEq

/-- Observable actions of the agent, in the order they happen. -/
inductive Event where
  | log (m : LogMsg)
  | removeFile (path : String)
  | loginCall (clientId clientSecret : String)
  | refreshCall (accessToken : String)
  | notify
  | sleep (d : Int)
  | writeFile (path data : String)
  | fatalExit
deriving DecidableEq

/-- Everything outside the `TokenManager`: the clock, the file system, which paths refuse a
write, and the trace of events so far. -/
structure World where
  clock : Int
  files : String → Option String
  unwritable : String → Bool
  trace : List Event

/-- What the surroundings do during one cycle. `login` and `refresh` stand for
`api.CallUniversalAuthLogin` and `api.CallUniversalAuthRefreshAccessToken` (package `api`, not
among the sources) together with their retry policy; `opLatency` is the time a remote call
takes and `wakeLag` how late the process resumes after a sleep, both in nanoseconds. -/
structure Env where
  login : String → String → Except String UniversalAuthLoginResponse
  refresh : String → Except String UniversalAuthLoginResponse
  opLatency : Nat
  wakeLag : Nat

/-- Errors returned by the two token operations. -/
inductive AgentError where
  | clientIdUnreadable
  | noClientSecret
  | remote (e : String)
deriving DecidableEq

/-- How a call of a token operation ends: it returns nil, returns an error, or the process
has been terminated inside it. -/
inductive CallResult where
  | ok
  | err (e : AgentError)
  | exited
deriving DecidableEq

/-! ## File system and process primitives -/

/-- Function `ReadFile`: the whole content, or `none` for an error. -/
def ReadFile (w : World) (filePath : String) : Option String := w.files filePath

/-- Library call `os.Remove`; its error is ignored by the caller. -/
def osRemove (w : World) (path : String) : World :=
  { w with
    files := fun p => if p = path then none else w.files p
    trace := w.trace ++ [Event.removeFile path] }

/-- Library call `ioutil.WriteFile`: a whole-file overwrite. It returns `false` on an error, in
which case the file is taken to be left as it was. -/
def ioutilWriteFile (w : World) (path data : String) : Bool × World :=
  if w.unwritable path then
    (false, { w with trace := w.trace ++ [Event.writeFile path data] })
  else
    (true, { w with
      files := fun p => if p = path then some data else w.files p
      trace := w.trace ++ [Event.writeFile path data] })

/-- Library call `time.Sleep`: returns at once for a duration that is not positive; the
process resumes `lag` nanoseconds after the sleep is due to end. -/
def timeSleep (w : World) (d : Int) (lag : Nat) : World :=
  { w with clock := w.clock + max d 0 + lag, trace := w.trace ++ [Event.sleep d] }

/-- Logging through zerolog. -/
def logMsg (w : World) (m : LogMsg) : World :=
  { w with trace := w.trace ++ [Event.log m] }

/-- Modelled from the spec: `util.PrintErrorMessageAndExit` lives in package `util`, which is
not among the sources; by the spec the fatal-TTL condition "terminates the process
immediately". The termination is recorded as `Event.fatalExit`. -/
def PrintErrorMessageAndExit (w : World) : World :=
  { w with trace := w.trace ++ [Event.fatalExit] }

/-! ## Token store -/

/-- Function `NewTokenManager`. -/
def NewTokenManager (fileDeposits : List Sink) (templates : List Template)
    (clientIdPath clientSecretPath : String) (removeClientSecretOnRead : Bool) : TokenManager :=
  { accessToken := ""
    accessTokenTTL := 0
    accessTokenMaxTTL := 0
    accessTokenFetchedTime := 0
    accessTokenRefreshedTime := 0
    filePaths := fileDeposits
    templates := templates
    clientIdPath := clientIdPath
    clientSecretPath := clientSecretPath
    removeClientSecretOnRead := removeClientSecretOnRead
    cachedClientSecret := "" }

/-- Method `SetToken`: stores the three fields and sends on the notification channel. -/
def SetToken (tm : TokenManager) (w : World) (token : String)
    (accessTokenTTL accessTokenMaxTTL : Int) : TokenManager × World :=
  ({ tm with
      accessToken := token
      accessTokenTTL := accessTokenTTL
      accessTokenMaxTTL := accessTokenMaxTTL },
   { w with trace := w.trace ++ [Event.notify] })

/-- Method `GetToken`. -/
def GetToken (tm : TokenManager) : String := tm.accessToken

/-- Function `getMaxTTL`. -/
def getMaxTTL (accessTokenTTL : Int) (accessTokenMaxTTL : Option Int) : Int :=
  match accessTokenMaxTTL with
  | none => wrap64 (accessTokenTTL * Second)
  | some m => wrap64 (m * Second)

/-! ## Login and refresh -/

/-- The client secret used by a login: the content of the secret file, or the cached secret
when the file cannot be read and the cache is not empty. -/
def clientSecretFor (tm : TokenManager) (w : World) : Option String :=
  match ReadFile w tm.clientSecretPath with
  | some s => some s
  | none => if tm.cachedClientSecret.length = 0 then none else some tm.cachedClientSecret

/-- Method `FetchNewAccessToken`: login with the client credentials. -/
def FetchNewAccessToken (env : Env) (tm : TokenManager) (w : World) :
    CallResult × TokenManager × World :=
  match ReadFile w tm.clientIdPath with
  | none => (CallResult.err AgentError.clientIdUnreadable, tm, w)
  | some clientId =>
    match clientSecretFor tm w with
    | none => (CallResult.err AgentError.noClientSecret, tm, w)
    | some clientSecret =>
      let w1 := if tm.removeClientSecretOnRead then osRemove w tm.clientSecretPath else w
      let tm1 := { tm with cachedClientSecret := clientSecret }
      let w2 := { w1 with
        clock := w1.clock + env.opLatency
        trace := w1.trace ++ [Event.loginCall clientId clientSecret] }
      match env.login clientId clientSecret with
      | Except.error e => (CallResult.err (AgentError.remote e), tm1, w2)
      | Except.ok loginResponse =>
        let accessTokenTTL := wrap64 (loginResponse.AccessTokenTTL * Second)
        let accessTokenMaxTTL :=
          getMaxTTL loginResponse.AccessTokenTTL loginResponse.AccessTokenMaxTTL
        if accessTokenTTL ≤ 5 * Second then
          (CallResult.exited, tm1, PrintErrorMessageAndExit w2)
        else
          let tm2 := { tm1 with accessTokenFetchedTime := w2.clock }
          let r := SetToken tm2 w2 loginResponse.AccessToken accessTokenTTL accessTokenMaxTTL
          (CallResult.ok, r.1, r.2)

/-- Method `RefreshAccessToken`. -/
def RefreshAccessToken (env : Env) (tm : TokenManager) (w : World) :
    CallResult × TokenManager × World :=
  let accessToken := GetToken tm
  let w1 := { w with
    clock := w.clock + env.opLatency
    trace := w.trace ++ [Event.refreshCall accessToken] }
  match env.refresh accessToken with
  | Except.error e => (CallResult.err (AgentError.remote e), tm, w1)
  | Except.ok response =>
    let accessTokenTTL := wrap64 (response.AccessTokenTTL * Second)
    let accessTokenMaxTTL := getMaxTTL response.AccessTokenTTL response.AccessTokenMaxTTL
    let tm1 := { tm with accessTokenRefreshedTime := w1.clock }
    let r := SetToken tm1 w1 response.AccessToken accessTokenTTL accessTokenMaxTTL
    (CallResult.ok, r.1, r.2)

/-! ## The lifecycle loop -/

/-- The three arms of the branch at the top of a cycle. -/
inductive Branch where
  | initLogin
  | reLogin
  | refresh
deriving DecidableEq

/-- The instant `accessTokenMaxTTLExpiresInTime`: fetched time plus max TTL less 5 seconds. -/
def accessTokenMaxTTLExpiresInTime (tm : TokenManager) : Int :=
  Time.Add tm.accessTokenFetchedTime (wrap64 (tm.accessTokenMaxTTL - 5 * Second))

/-- The local variable `accessTokenRefreshedTime` as it is set before the operation runs. -/
def refreshedTimeBefore (tm : TokenManager) : Int :=
  if Time.IsZero tm.accessTokenRefreshedTime then tm.accessTokenFetchedTime
  else tm.accessTokenRefreshedTime

/-- The local variable `accessTokenRefreshedTime` as it is set again after a successful
operation: `before` is its earlier value, `tm` the manager after the operation. -/
def refreshedTimeAfter (before : Int) (tm : TokenManager) : Int :=
  if Time.IsZero before then tm.accessTokenFetchedTime else tm.accessTokenRefreshedTime

/-- The instant `nextAccessTokenExpiresInTime` computed after a successful operation. -/
def nextAccessTokenExpiresInTime (before : Int) (tm : TokenManager) : Int :=
  Time.Add (refreshedTimeAfter before tm) (wrap64 (tm.accessTokenTTL - 5 * Second))

/-- Which arm a cycle takes when the clock reads `now`. -/
def selectBranch (tm : TokenManager) (now : Int) : Branch :=
  if Time.IsZero tm.accessTokenFetchedTime && Time.IsZero tm.accessTokenRefreshedTime then
    Branch.initLogin
  else if Time.After now (accessTokenMaxTTLExpiresInTime tm) then
    Branch.reLogin
  else
    Branch.refresh

/-- The info line and the operation of an arm. -/
def runBranch (env : Env) (b : Branch) (tm : TokenManager) (w : World) :
    CallResult × TokenManager × World :=
  match b with
  | Branch.initLogin => FetchNewAccessToken env tm (logMsg w LogMsg.attemptingToAuthenticate)
  | Branch.reLogin => FetchNewAccessToken env tm (logMsg w LogMsg.reachedMaxTTL)
  | Branch.refresh => RefreshAccessToken env tm (logMsg w LogMsg.attemptingToRefresh)

/-- The error line of an arm. -/
def failureLog (b : Branch) : LogMsg :=
  match b with
  | Branch.initLogin => LogMsg.unableToAuthenticate
  | Branch.reLogin => LogMsg.unableToAuthenticate
  | Branch.refresh => LogMsg.unableToRefresh

/-- Whether the sleep after a successful operation takes the arm for a next refresh that
would fall beyond the max TTL boundary. -/
def clampedSleep (before : Int) (tm : TokenManager) : Bool :=
  Time.After (nextAccessTokenExpiresInTime before tm) (accessTokenMaxTTLExpiresInTime tm)

/-- The duration handed to `time.Sleep` after a successful operation. -/
def sleepAfterSuccess (before : Int) (tm : TokenManager) : Int :=
  if clampedSleep before tm then
    wrap64 (tm.accessTokenTTL -
      Time.Sub (nextAccessTokenExpiresInTime before tm) (accessTokenMaxTTLExpiresInTime tm))
  else
    wrap64 (tm.accessTokenTTL - 5 * Second)

/-- How one pass through the loop body ends. -/
inductive CycleOutcome where
  | slept (clamped : Bool) (d : Int)
  | retried (e : AgentError)
  | exited
deriving DecidableEq

structure CycleResult where
  branch : Branch
  outcome : CycleOutcome
  tm : TokenManager
  world : World

/-- One pass through the body of the loop of `ManageTokenLifecycle`. -/
def cycle (env : Env) (tm : TokenManager) (w : World) : CycleResult :=
  let before := refreshedTimeBefore tm
  let b := selectBranch tm w.clock
  let r := runBranch env b tm w
  match r.1 with
  | CallResult.exited =>
    { branch := b, outcome := CycleOutcome.exited, tm := r.2.1, world := r.2.2 }
  | CallResult.err e =>
    { branch := b
      outcome := CycleOutcome.retried e
      tm := r.2.1
      world := timeSleep (logMsg r.2.2 (failureLog b)) (30 * Second) env.wakeLag }
  | CallResult.ok =>
    let d := sleepAfterSuccess before r.2.1
    { branch := b
      outcome := CycleOutcome.slept (clampedSleep before r.2.1) d
      tm := r.2.1
      world := timeSleep r.2.2 d env.wakeLag }

/-- Method `ManageTokenLifecycle`: the loop runs one cycle per entry of `envs` and stops early
only when the process has been terminated. -/
def ManageTokenLifecycle : List Env → TokenManager → World → TokenManager × World
  | [], tm, w => (tm, w)
  | env :: envs, tm, w =>
    match (cycle env tm w).outcome with
    | CycleOutcome.exited => ((cycle env tm w).tm, (cycle env tm w).world)
    | _ => ManageTokenLifecycle envs (cycle env tm w).tm (cycle env tm w).world

/-! ## Sink fan-out -/

/-- The body of the loop of `WriteTokenToFiles` for one sink. -/
def writeSink (token : String) (w : World) (sinkFile : Sink) : World :=
  if sinkFile.Type_ = "file" then
    let r := ioutilWriteFile w sinkFile.Config.Path token
    let w1 := if r.1 then r.2 else logMsg r.2 (LogMsg.unableToWriteSink sinkFile.Config.Path)
    logMsg w1 (LogMsg.savedToSink sinkFile.Config.Path)
  else
    logMsg w LogMsg.unsupportedSinkType

/-- Whether an event is a file write. -/
def Event.isWrite : Event → Bool
  | Event.writeFile _ _ => true
  | _ => false

/-- Method `WriteTokenToFiles`. -/
def WriteTokenToFiles (tm : TokenManager) (w : World) : World :=
  (tm.filePaths).foldl (writeSink (GetToken tm)) w

/-! ## Reachable states -/

/-- The states the lifecycle loop can be in at the top of a cycle: it starts from a fresh
manager at a clock reading after the zero time, runs cycles until the process is
terminated, and between cycles the surroundings may change the files and let time pass. -/
inductive Reachable : TokenManager → World → Prop where
  | start (fileDeposits : List Sink) (templates : List Template)
      (clientIdPath clientSecretPath : String) (removeClientSecretOnRead : Bool) (w : World)
      (h : 0 < w.clock) :
      Reachable
        (NewTokenManager fileDeposits templates clientIdPath clientSecretPath
          removeClientSecretOnRead) w
  | next (env : Env) {tm : TokenManager} {w : World} (h : Reachable tm w)
      (hrun : (cycle env tm w).outcome ≠ CycleOutcome.exited) :
      Reachable (cycle env tm w).tm (cycle env tm w).world
  | drift {tm : TokenManager} {w : World} (w' : World) (h : Reachable tm w)
      (hclock : w.clock ≤ w'.clock) : Reachable tm w'

/-! ## A concrete deployment used to run the model -/

/-- A file system holding a client id and a client secret. -/
def demoFiles : String → Option String := fun p =>
  if p = "client-id" then some "machine-1"
  else if p = "client-secret" then some "s3cret"
  else none

/-- A world at clock reading 1000 s in which every write succeeds. -/
def demoWorld : World :=
  { clock := 1000 * Second, files := demoFiles, unwritable := fun _ => false, trace := [] }

/-- A remote service that accepts every login and every refresh, answering with the given
TTL and max TTL (in seconds), with no latency and no wake-up lag. -/
def demoEnv (ttl : Int) (maxTTL : Option Int) : Env :=
  { login := fun _ _ =>
      Except.ok { AccessToken := "t-login", AccessTokenTTL := ttl, AccessTokenMaxTTL := maxTTL }
    refresh := fun _ =>
      Except.ok { AccessToken := "t-refresh", AccessTokenTTL := ttl, AccessTokenMaxTTL := maxTTL }
    opLatency := 0
    wakeLag := 0 }

/-- A freshly constructed manager without sinks or templates. -/
def demoManager : TokenManager :=
  NewTokenManager [] [] "client-id" "client-secret" false

/-- The demo deployment after `n` cycles against a service that grants an 11 s TTL and a
30 s max TTL. -/
def demoState (n : Nat) : TokenManager × World :=
  ManageTokenLifecycle (List.replicate n (demoEnv 11 (some 30))) demoManager demoWorld

/-- The demo deployment after its first login against a service that sends no max TTL. -/
def demoDefaultState : TokenManager × World :=
  ManageTokenLifecycle [demoEnv 11 none] demoManager demoWorld

/-- A remote service whose refresh endpoint answers with a TTL of 5 seconds. -/
def demoShortRefreshEnv : Env :=
  { login := (demoEnv 11 (some 30)).login
    refresh := fun _ =>
      Except.ok { AccessToken := "t-short", AccessTokenTTL := 5, AccessTokenMaxTTL := some 30 }
    opLatency := 0
    wakeLag := 0 }

/-- A remote service that is down. -/
def demoDownEnv : Env :=
  { login := fun _ _ => Except.error "unavailable"
    refresh := fun _ => Except.error "unavailable"
    opLatency := 0
    wakeLag := 0 }

/-- The world after the first demo cycle, with the client secret file gone. -/
def demoSecretGone : World :=
  { (demoState 1).2 with
    files := fun p => if p = "client-id" then some "machine-1" else none }

/-- A manager with two file sinks and one sink of another type, holding a token. -/
def demoSinkManager : TokenManager :=
  { (NewTokenManager
      [{ Type_ := "file", Config := { Path := "/run/a" } },
       { Type_ := "socket", Config := { Path := "/run/s" } },
       { Type_ := "file", Config := { Path := "/run/b" } }]
      [] "client-id" "client-secret" false) with
    accessToken := "t-login" }

/-- A world in which the first sink path refuses writes. -/
def demoSinkWorld : World :=
  { demoWorld with unwritable := fun p => decide (p = "/run/a") }

/-- The fifth demo cycle: the refresh performed 24 s after the login. -/
def demoClampedCycle : CycleResult :=
  cycle (demoEnv 11 (some 30)) (demoState 4).1 (demoState 4).2

/-- The sixth demo cycle: the login forced at the max TTL. -/
def demoReLoginCycle : CycleResult :=
  cycle (demoEnv 11 (some 30)) (demoState 5).1 (demoState 5).2

/-- The world after the first demo cycle, with an empty client secret file. -/
def demoSecretEmptied : World :=
  { (demoState 1).2 with
    files := fun p =>
      if p = "client-id" then some "machine-1"
      else if p = "client-secret" then some ""
      else none }

/-- The manager after a login that read the empty client secret file. -/
def demoAfterEmptyRead : TokenManager :=
  (FetchNewAccessToken (demoEnv 11 (some 30)) (demoState 1).1 demoSecretEmptied).2.1

/-- The demo service with remote calls that take 7 s. -/
def demoSlowEnv : Env :=
  { login := (demoEnv 11 (some 30)).login
    refresh := (demoEnv 11 (some 30)).refresh
    opLatency := 7000000000
    wakeLag := 0 }

/-- The demo deployment after its first login against a service that grants a 6 s TTL. -/
def demoSixState : TokenManager × World :=
  ManageTokenLifecycle [demoEnv 6 (some 30)] demoManager demoWorld

/-- A remote service whose refresh endpoint answers with a TTL of 2^54 + 2 seconds and no
max TTL. -/
def demoHugeTTLEnv : Env :=
  { login := (demoEnv 6 (some 30)).login
    refresh := fun _ =>
      Except.ok
        { AccessToken := "t-huge", AccessTokenTTL := 18014398509481986,
          AccessTokenMaxTTL := none }
    opLatency := 0
    wakeLag := 0 }

/-- The refresh one second after the 6 s login, answered with the huge TTL. -/
def demoWrappedCycle : CycleResult :=
  cycle demoHugeTTLEnv demoSixState.1 demoSixState.2

/-! ## Theorems -/

/-- Wrapping leaves a value inside the 64 bit range untouched. -/
theorem wrap64_of_range (x : Int) (h1 : -9223372036854775808 ≤ x)
    (h2 : x ≤ 9223372036854775807) : wrap64 x = x := by
  unfold wrap64; omega

/-- A wrapped value is at least the smallest 64 bit integer. -/
theorem wrap64_lower (x : Int) : -9223372036854775808 ≤ wrap64 x := by
  unfold wrap64; omega

/-- A wrapped value is at most the largest 64 bit integer. -/
theorem wrap64_upper (x : Int) : wrap64 x ≤ 9223372036854775807 := by
  unfold wrap64; omega

/-- What a login that returns nil has done: both reads and the remote call succeeded, the TTL
is above 5 s, and the manager holds the new token, TTLs, fetched time and cached secret. -/
theorem FetchNewAccessToken_ok_inv (env : Env) (tm : TokenManager) (w : World)
    (h : (FetchNewAccessToken env tm w).1 = CallResult.ok) :
    ∃ clientId clientSecret resp,
      ReadFile w tm.clientIdPath = some clientId ∧
      clientSecretFor tm w = some clientSecret ∧
      env.login clientId clientSecret = Except.ok resp ∧
      5 * Second < wrap64 (resp.AccessTokenTTL * Second) ∧
      (FetchNewAccessToken env tm w).2.1 =
        { tm with
          cachedClientSecret := clientSecret
          accessTokenFetchedTime := w.clock + env.opLatency
          accessToken := resp.AccessToken
          accessTokenTTL := wrap64 (resp.AccessTokenTTL * Second)
          accessTokenMaxTTL := getMaxTTL resp.AccessTokenTTL resp.AccessTokenMaxTTL } ∧
      (FetchNewAccessToken env tm w).2.2.clock = w.clock + env.opLatency := by
  cases hid : ReadFile w tm.clientIdPath with
  | none => simp [FetchNewAccessToken, hid] at h
  | some clientId =>
    cases hs : clientSecretFor tm w with
    | none => simp [FetchNewAccessToken, hid, hs] at h
    | some clientSecret =>
      cases hl : env.login clientId clientSecret with
      | error e => simp [FetchNewAccessToken, hid, hs, hl] at h
      | ok resp =>
        by_cases ht : wrap64 (resp.AccessTokenTTL * Second) ≤ 5 * Second
        · simp [FetchNewAccessToken, hid, hs, hl, ht] at h
        · have hc : (if tm.removeClientSecretOnRead = true then osRemove w tm.clientSecretPath
              else w).clock = w.clock := by
            split <;> rfl
          refine ⟨clientId, clientSecret, resp, rfl, rfl, hl, not_le.mp ht, ?_, ?_⟩
          · simp [FetchNewAccessToken, hid, hs, hl, ht, SetToken, hc]
          · simp [FetchNewAccessToken, hid, hs, hl, ht, SetToken, hc]

/-- What a refresh that returns nil has done: the remote call succeeded and the manager holds
the new token, TTLs and refreshed time. -/
theorem RefreshAccessToken_ok_inv (env : Env) (tm : TokenManager) (w : World)
    (h : (RefreshAccessToken env tm w).1 = CallResult.ok) :
    ∃ resp,
      env.refresh tm.accessToken = Except.ok resp ∧
      (RefreshAccessToken env tm w).2.1 =
        { tm with
          accessTokenRefreshedTime := w.clock + env.opLatency
          accessToken := resp.AccessToken
          accessTokenTTL := wrap64 (resp.AccessTokenTTL * Second)
          accessTokenMaxTTL := getMaxTTL resp.AccessTokenTTL resp.AccessTokenMaxTTL } ∧
      (RefreshAccessToken env tm w).2.2.clock = w.clock + env.opLatency := by
  cases hl : env.refresh tm.accessToken with
  | error e => simp [RefreshAccessToken, GetToken, hl] at h
  | ok resp =>
    refine ⟨resp, rfl, ?_, ?_⟩
    · simp [RefreshAccessToken, GetToken, hl, SetToken]
    · simp [RefreshAccessToken, GetToken, hl, SetToken]

/-- A login never moves the clock back, sets the fetched time to the clock or leaves it, and
never writes the refreshed time. -/
theorem FetchNewAccessToken_times (env : Env) (tm : TokenManager) (w : World) :
    w.clock ≤ (FetchNewAccessToken env tm w).2.2.clock ∧
    ((FetchNewAccessToken env tm w).2.1.accessTokenFetchedTime = tm.accessTokenFetchedTime ∨
      (FetchNewAccessToken env tm w).2.1.accessTokenFetchedTime =
        (FetchNewAccessToken env tm w).2.2.clock) ∧
    (FetchNewAccessToken env tm w).2.1.accessTokenRefreshedTime =
      tm.accessTokenRefreshedTime := by
  have hc : (if tm.removeClientSecretOnRead = true then osRemove w tm.clientSecretPath
      else w).clock = w.clock := by
    split <;> rfl
  cases hid : ReadFile w tm.clientIdPath with
  | none => simp [FetchNewAccessToken, hid]
  | some clientId =>
    cases hs : clientSecretFor tm w with
    | none => simp [FetchNewAccessToken, hid, hs]
    | some clientSecret =>
      cases hl : env.login clientId clientSecret with
      | error e => simp [FetchNewAccessToken, hid, hs, hl, hc]
      | ok resp =>
        by_cases ht : wrap64 (resp.AccessTokenTTL * Second) ≤ 5 * Second
        · simp [FetchNewAccessToken, hid, hs, hl, ht, hc, PrintErrorMessageAndExit]
        · simp [FetchNewAccessToken, hid, hs, hl, ht, hc, SetToken]

/-- A refresh never moves the clock back, never writes the fetched time, and sets the
refreshed time to the clock or leaves it. -/
theorem RefreshAccessToken_times (env : Env) (tm : TokenManager) (w : World) :
    w.clock ≤ (RefreshAccessToken env tm w).2.2.clock ∧
    (RefreshAccessToken env tm w).2.1.accessTokenFetchedTime = tm.accessTokenFetchedTime ∧
    ((RefreshAccessToken env tm w).2.1.accessTokenRefreshedTime =
        tm.accessTokenRefreshedTime ∨
      (RefreshAccessToken env tm w).2.1.accessTokenRefreshedTime =
        (RefreshAccessToken env tm w).2.2.clock) := by
  cases hl : env.refresh tm.accessToken with
  | error e => simp [RefreshAccessToken, GetToken, hl]
  | ok resp => simp [RefreshAccessToken, GetToken, hl, SetToken]

/-- The time stamps after any arm of the branch are the old ones or the current clock. -/
theorem runBranch_times (env : Env) (b : Branch) (tm : TokenManager) (w : World) :
    w.clock ≤ (runBranch env b tm w).2.2.clock ∧
    ((runBranch env b tm w).2.1.accessTokenFetchedTime = tm.accessTokenFetchedTime ∨
      (runBranch env b tm w).2.1.accessTokenFetchedTime = (runBranch env b tm w).2.2.clock) ∧
    ((runBranch env b tm w).2.1.accessTokenRefreshedTime = tm.accessTokenRefreshedTime ∨
      (runBranch env b tm w).2.1.accessTokenRefreshedTime =
        (runBranch env b tm w).2.2.clock) := by
  cases b with
  | initLogin =>
    have h := FetchNewAccessToken_times env tm (logMsg w LogMsg.attemptingToAuthenticate)
    exact ⟨h.1, h.2.1, Or.inl h.2.2⟩
  | reLogin =>
    have h := FetchNewAccessToken_times env tm (logMsg w LogMsg.reachedMaxTTL)
    exact ⟨h.1, h.2.1, Or.inl h.2.2⟩
  | refresh =>
    have h := RefreshAccessToken_times env tm (logMsg w LogMsg.attemptingToRefresh)
    exact ⟨h.1, Or.inl h.2.1, h.2.2⟩

/-- The manager after a cycle is the manager after the operation of the selected arm. -/
theorem cycle_tm (env : Env) (tm : TokenManager) (w : World) :
    (cycle env tm w).tm = (runBranch env (selectBranch tm w.clock) tm w).2.1 := by
  simp only [cycle]
  split <;> rfl

/-- The arm a cycle reports is the one `selectBranch` picks at the clock of the world. -/
theorem cycle_branch (env : Env) (tm : TokenManager) (w : World) :
    (cycle env tm w).branch = selectBranch tm w.clock := by
  simp only [cycle]
  split <;> rfl

/-- The clock at the end of a cycle is not before the clock at the end of its operation. -/
theorem cycle_clock (env : Env) (tm : TokenManager) (w : World) :
    (runBranch env (selectBranch tm w.clock) tm w).2.2.clock ≤ (cycle env tm w).world.clock := by
  simp only [cycle]
  split <;> simp only [timeSleep, logMsg] <;> omega

/-- In a reachable state the clock is after the zero time and no time stamp lies in the
future. -/
theorem Reachable.times {tm : TokenManager} {w : World} (h : Reachable tm w) :
    0 < w.clock ∧ tm.accessTokenFetchedTime ≤ w.clock ∧
      tm.accessTokenRefreshedTime ≤ w.clock := by
  induction h with
  | start fileDeposits templates clientIdPath clientSecretPath removeClientSecretOnRead w h =>
    simp only [NewTokenManager]; omega
  | next env h hrun ih =>
    rename_i tm w
    have h1 := runBranch_times env (selectBranch tm w.clock) tm w
    have h2 := cycle_clock env tm w
    rw [cycle_tm]
    rcases h1 with ⟨ha, hb, hc⟩
    refine ⟨by omega, ?_, ?_⟩
    · rcases hb with hb | hb <;> omega
    · rcases hc with hc | hc <;> omega
  | drift w' h hclock ih =>
    rcases ih with ⟨h1, h2, h3⟩
    exact ⟨by omega, by omega, by omega⟩

/-- The result of `getMaxTTL` is at least the smallest 64 bit integer. -/
theorem getMaxTTL_lower (t : Int) (m : Option Int) :
    -9223372036854775808 ≤ getMaxTTL t m := by
  cases m <;> exact wrap64_lower _

/-- The result of `getMaxTTL` is at most the largest 64 bit integer. -/
theorem getMaxTTL_upper (t : Int) (m : Option Int) :
    getMaxTTL t m ≤ 9223372036854775807 := by
  cases m <;> exact wrap64_upper _

/-- A cycle that ends in the success sleep ran an operation that returned nil, slept for
`sleepAfterSuccess`, and its last event is that sleep. -/
theorem cycle_slept_inv (env : Env) (tm : TokenManager) (w : World) (c : Bool) (d : Int)
    (h : (cycle env tm w).outcome = CycleOutcome.slept c d) :
    (runBranch env (selectBranch tm w.clock) tm w).1 = CallResult.ok ∧
    c = clampedSleep (refreshedTimeBefore tm) (cycle env tm w).tm ∧
    d = sleepAfterSuccess (refreshedTimeBefore tm) (cycle env tm w).tm ∧
    (cycle env tm w).world.clock =
      (runBranch env (selectBranch tm w.clock) tm w).2.2.clock + max d 0 + env.wakeLag ∧
    (cycle env tm w).world.trace.getLast? = some (Event.sleep d) := by
  cases hr : (runBranch env (selectBranch tm w.clock) tm w).1 with
  | exited => simp [cycle, hr] at h
  | err e => simp [cycle, hr] at h
  | ok =>
    simp only [cycle, hr] at h ⊢
    simp only [CycleOutcome.slept.injEq] at h
    obtain ⟨h1, h2⟩ := h
    subst h1
    subst h2
    simp [timeSleep]

/-- Outside the cold start arm the local refreshed time is set before the operation runs. -/
theorem refreshedTimeBefore_ne_zero (tm : TokenManager) (now : Int)
    (h : selectBranch tm now ≠ Branch.initLogin) : refreshedTimeBefore tm ≠ 0 := by
  unfold refreshedTimeBefore
  unfold selectBranch at h
  simp only [Time.IsZero] at h ⊢
  by_cases h1 : tm.accessTokenRefreshedTime = 0
  · by_cases h2 : tm.accessTokenFetchedTime = 0
    · simp [h1, h2] at h
    · simp [h1, h2]
  · simp [h1]

/-- In the cold start arm the local refreshed time is the zero time before the login runs. -/
theorem refreshedTimeBefore_eq_zero (tm : TokenManager) (now : Int)
    (h : selectBranch tm now = Branch.initLogin) : refreshedTimeBefore tm = 0 := by
  unfold refreshedTimeBefore
  unfold selectBranch at h
  simp only [Time.IsZero] at h ⊢
  by_cases h1 : tm.accessTokenRefreshedTime = 0
  · by_cases h2 : tm.accessTokenFetchedTime = 0
    · simp [h1, h2]
    · simp [h1, h2] at h
      split at h <;> simp at h
  · simp [h1] at h
    split at h <;> simp at h

/-- Facts about the manager after a cycle whose operation succeeded: which time stamps were
set, the instant `refreshedTimeAfter` denotes, and the 64 bit range of the stored TTLs. -/
theorem cycle_slept_state (env : Env) (tm : TokenManager) (w : World) (c : Bool) (d : Int)
    (h : (cycle env tm w).outcome = CycleOutcome.slept c d) :
    (-9223372036854775808 ≤ (cycle env tm w).tm.accessTokenTTL ∧
      (cycle env tm w).tm.accessTokenTTL ≤ 9223372036854775807) ∧
    (-9223372036854775808 ≤ (cycle env tm w).tm.accessTokenMaxTTL ∧
      (cycle env tm w).tm.accessTokenMaxTTL ≤ 9223372036854775807) ∧
    (cycle env tm w).world.clock = w.clock + env.opLatency + max d 0 + env.wakeLag ∧
    (((cycle env tm w).branch = Branch.refresh ∧
        (cycle env tm w).tm.accessTokenFetchedTime = tm.accessTokenFetchedTime ∧
        (cycle env tm w).tm.accessTokenRefreshedTime = w.clock + env.opLatency ∧
        refreshedTimeAfter (refreshedTimeBefore tm) (cycle env tm w).tm =
          w.clock + env.opLatency) ∨
      ((cycle env tm w).branch = Branch.initLogin ∧
        (cycle env tm w).tm.accessTokenFetchedTime = w.clock + env.opLatency ∧
        (cycle env tm w).tm.accessTokenRefreshedTime = tm.accessTokenRefreshedTime ∧
        5 * Second < (cycle env tm w).tm.accessTokenTTL ∧
        refreshedTimeAfter (refreshedTimeBefore tm) (cycle env tm w).tm =
          w.clock + env.opLatency) ∨
      ((cycle env tm w).branch = Branch.reLogin ∧
        (cycle env tm w).tm.accessTokenFetchedTime = w.clock + env.opLatency ∧
        (cycle env tm w).tm.accessTokenRefreshedTime = tm.accessTokenRefreshedTime ∧
        5 * Second < (cycle env tm w).tm.accessTokenTTL ∧
        refreshedTimeAfter (refreshedTimeBefore tm) (cycle env tm w).tm =
          tm.accessTokenRefreshedTime)) := by
  obtain ⟨hok, -, -, hclock, -⟩ := cycle_slept_inv env tm w c d h
  rw [cycle_tm, cycle_branch]
  rw [hclock]
  cases hb : selectBranch tm w.clock with
  | initLogin =>
    rw [hb] at hok
    have hz := refreshedTimeBefore_eq_zero tm w.clock hb
    obtain ⟨clientId, clientSecret, resp, -, -, -, httl, htm, hck⟩ :=
      FetchNewAccessToken_ok_inv env tm _ hok
    simp only [runBranch, htm, hck]
    have := wrap64_lower (resp.AccessTokenTTL * Second)
    have := wrap64_upper (resp.AccessTokenTTL * Second)
    have := getMaxTTL_lower resp.AccessTokenTTL resp.AccessTokenMaxTTL
    have := getMaxTTL_upper resp.AccessTokenTTL resp.AccessTokenMaxTTL
    simp [hz, refreshedTimeAfter, Time.IsZero, logMsg]
    omega
  | reLogin =>
    rw [hb] at hok
    have hz := refreshedTimeBefore_ne_zero tm w.clock (by rw [hb]; simp)
    obtain ⟨clientId, clientSecret, resp, -, -, -, httl, htm, hck⟩ :=
      FetchNewAccessToken_ok_inv env tm _ hok
    simp only [runBranch, htm, hck]
    have := wrap64_lower (resp.AccessTokenTTL * Second)
    have := wrap64_upper (resp.AccessTokenTTL * Second)
    have := getMaxTTL_lower resp.AccessTokenTTL resp.AccessTokenMaxTTL
    have := getMaxTTL_upper resp.AccessTokenTTL resp.AccessTokenMaxTTL
    simp [hz, refreshedTimeAfter, Time.IsZero, logMsg]
    omega
  | refresh =>
    rw [hb] at hok
    have hz := refreshedTimeBefore_ne_zero tm w.clock (by rw [hb]; simp)
    obtain ⟨resp, -, htm, hck⟩ := RefreshAccessToken_ok_inv env tm _ hok
    simp only [runBranch, htm, hck]
    have := wrap64_lower (resp.AccessTokenTTL * Second)
    have := wrap64_upper (resp.AccessTokenTTL * Second)
    have := getMaxTTL_lower resp.AccessTokenTTL resp.AccessTokenMaxTTL
    have := getMaxTTL_upper resp.AccessTokenTTL resp.AccessTokenMaxTTL
    simp [hz, refreshedTimeAfter, Time.IsZero, logMsg]
    omega

/-- C2 (amended): in every reachable state, after a cycle whose login or refresh succeeded with
a stored credential satisfying ttl > 5 s and maxTTL >= ttl, the duration handed to the sleep
is strictly positive, provided that a refresh completed (the refreshedAt it stored) not after
fetchedAt + maxTTL - 5 s for the maxTTL it stored; the duration is
ttl - (nextRefreshAt - maxBoundaryAt) in the clamped branch and ttl - 5 s otherwise. -/
theorem sleep_after_success_pos (env : Env) (tm : TokenManager) (w : World) (c : Bool)
    (d : Int) (hreach : Reachable tm w)
    (hrun : (cycle env tm w).outcome = CycleOutcome.slept c d)
    (httl : 5 * Second < (cycle env tm w).tm.accessTokenTTL)
    (hmax : (cycle env tm w).tm.accessTokenTTL ≤ (cycle env tm w).tm.accessTokenMaxTTL)
    (hrefresh : (cycle env tm w).branch = Branch.refresh →
      (cycle env tm w).tm.accessTokenRefreshedTime ≤
        (cycle env tm w).tm.accessTokenFetchedTime +
          (cycle env tm w).tm.accessTokenMaxTTL - 5 * Second) :
    (cycle env tm w).world.trace.getLast? = some (Event.sleep d) ∧ 0 < d ∧
      (c = true → d = (cycle env tm w).tm.accessTokenTTL -
        (nextAccessTokenExpiresInTime (refreshedTimeBefore tm) (cycle env tm w).tm -
          accessTokenMaxTTLExpiresInTime (cycle env tm w).tm)) ∧
      (c = false → d = (cycle env tm w).tm.accessTokenTTL - 5 * Second) := by
  obtain ⟨-, hc, hd, -, htrace⟩ := cycle_slept_inv env tm w c d hrun
  obtain ⟨hr1, hr2, -, hcases⟩ := cycle_slept_state env tm w c d hrun
  obtain ⟨hclk, hF, hR⟩ := hreach.times
  refine ⟨htrace, ?_⟩
  subst hc
  subst hd
  simp only [sleepAfterSuccess, clampedSleep, nextAccessTokenExpiresInTime,
    accessTokenMaxTTLExpiresInTime, Time.Add, Time.After, Time.Sub, decide_eq_true_eq,
    minInt64, maxInt64, wrap64, Second, decide_eq_false_iff_not] at *
  rcases hcases with ⟨hb, h1, h2, h3⟩ | ⟨hb, h1, h2, h3, h4⟩ | ⟨hb, h1, h2, h3, h4⟩
  · have := hrefresh hb
    rw [h3]
    split_ifs <;> omega
  · rw [h4]
    split_ifs <;> omega
  · rw [h4]
    split_ifs <;> omega

/-- C1 (amended): in a reachable state, after a cycle whose login or refresh succeeded with a
stored credential satisfying ttl > 5 s and maxTTL >= ttl (a refresh completing not after
fetchedAt + maxTTL), the wake time, that is the instant the operation completed plus the
computed sleep, is not later than fetchedAt + maxTTL; in the clamped branch it is exactly
fetchedAt + maxTTL, and in the unclamped branch it is not later than
fetchedAt + maxTTL - 5 s. -/
theorem wake_time_bound (env : Env) (tm : TokenManager) (w : World) (c : Bool)
    (d : Int) (hreach : Reachable tm w)
    (hrun : (cycle env tm w).outcome = CycleOutcome.slept c d)
    (httl : 5 * Second < (cycle env tm w).tm.accessTokenTTL)
    (hmax : (cycle env tm w).tm.accessTokenTTL ≤ (cycle env tm w).tm.accessTokenMaxTTL)
    (hrefresh : (cycle env tm w).branch = Branch.refresh →
      (cycle env tm w).tm.accessTokenRefreshedTime ≤
        (cycle env tm w).tm.accessTokenFetchedTime +
          (cycle env tm w).tm.accessTokenMaxTTL) :
    (cycle env tm w).world.clock = w.clock + env.opLatency + d + env.wakeLag ∧
      w.clock + env.opLatency + d ≤
        (cycle env tm w).tm.accessTokenFetchedTime + (cycle env tm w).tm.accessTokenMaxTTL ∧
      (c = true → w.clock + env.opLatency + d =
        (cycle env tm w).tm.accessTokenFetchedTime + (cycle env tm w).tm.accessTokenMaxTTL) ∧
      (c = false → w.clock + env.opLatency + d ≤
        (cycle env tm w).tm.accessTokenFetchedTime + (cycle env tm w).tm.accessTokenMaxTTL -
          5 * Second) := by
  obtain ⟨-, hc, hd, -, -⟩ := cycle_slept_inv env tm w c d hrun
  obtain ⟨hr1, hr2, hw, hcases⟩ := cycle_slept_state env tm w c d hrun
  obtain ⟨hclk, hF, hR⟩ := hreach.times
  rw [hw]
  subst hc
  subst hd
  simp only [sleepAfterSuccess, clampedSleep, nextAccessTokenExpiresInTime,
    accessTokenMaxTTLExpiresInTime, Time.Add, Time.After, Time.Sub, decide_eq_true_eq,
    minInt64, maxInt64, wrap64, Second, decide_eq_false_iff_not] at *
  rcases hcases with ⟨hb, h1, h2, h3⟩ | ⟨hb, h1, h2, h3, h4⟩ | ⟨hb, h1, h2, h3, h4⟩
  · have := hrefresh hb
    rw [h3]
    split_ifs <;> omega
  · rw [h4]
    split_ifs <;> omega
  · rw [h4]
    split_ifs <;> omega

/-- C6 (amended): in a reachable state, when a successful cycle whose stored ttl is not
negative takes the clamped sleep branch, every cycle that starts when that sleep has ended
selects the forced login arm, not the refresh arm. -/
theorem clamped_sleep_then_forced_login (env : Env) (tm : TokenManager) (w : World)
    (d : Int) (hreach : Reachable tm w)
    (hrun : (cycle env tm w).outcome = CycleOutcome.slept true d)
    (httl : 0 ≤ (cycle env tm w).tm.accessTokenTTL) :
    ∀ (env' : Env) (w' : World), (cycle env tm w).world.clock ≤ w'.clock →
      (cycle env' (cycle env tm w).tm w').branch = Branch.reLogin := by
  intro env' w' hlater
  obtain ⟨-, hc, hd, -, -⟩ := cycle_slept_inv env tm w true d hrun
  obtain ⟨hr1, hr2, hw, hcases⟩ := cycle_slept_state env tm w true d hrun
  obtain ⟨hclk, hF, hR⟩ := hreach.times
  rw [cycle_branch]
  rw [hw] at hlater
  subst hd
  have hc' := hc.symm
  simp only [sleepAfterSuccess, clampedSleep, nextAccessTokenExpiresInTime,
    accessTokenMaxTTLExpiresInTime, Time.Add, Time.After, Time.Sub, decide_eq_true_eq,
    minInt64, maxInt64, wrap64, Second, decide_eq_false_iff_not, selectBranch,
    Time.IsZero, Bool.and_eq_true] at *
  rcases hcases with ⟨hb, h1, h2, h3⟩ | ⟨hb, h1, h2, h3, h4⟩ | ⟨hb, h1, h2, h3, h4⟩
  · rw [h3] at hlater hc'
    rw [if_neg (by omega)]
    rw [if_pos]
    split_ifs at hlater <;> omega
  · rw [h4] at hlater hc'
    rw [if_neg (by omega)]
    rw [if_pos]
    split_ifs at hlater <;> omega
  · rw [h4] at hlater hc'
    rw [if_neg (by omega)]
    rw [if_pos]
    split_ifs at hlater <;> omega

/-- The refresh arm is never taken while both time stamps are unset. -/
theorem selectBranch_refresh_not_cold (tm : TokenManager) (now : Int)
    (h : selectBranch tm now = Branch.refresh) :
    ¬ (tm.accessTokenFetchedTime = 0 ∧ tm.accessTokenRefreshedTime = 0) := by
  intro hz
  simp [selectBranch, Time.IsZero, hz.1, hz.2] at h

/-- In a reachable state an unset fetched time implies an unset refreshed time. -/
theorem Reachable.fetched_zero {tm : TokenManager} {w : World} (h : Reachable tm w) :
    tm.accessTokenFetchedTime = 0 → tm.accessTokenRefreshedTime = 0 := by
  induction h with
  | start fileDeposits templates clientIdPath clientSecretPath removeClientSecretOnRead w h =>
    intro _
    rfl
  | next env h hrun ih =>
    rename_i tm w
    obtain ⟨hclk, hF, hR⟩ := h.times
    rw [cycle_tm]
    cases hb : selectBranch tm w.clock with
    | initLogin =>
      have h1 := FetchNewAccessToken_times env tm (logMsg w LogMsg.attemptingToAuthenticate)
      have hz := refreshedTimeBefore_eq_zero tm w.clock hb
      simp only [runBranch]
      intro h0
      rw [h1.2.2]
      rcases h1.2.1 with h2 | h2
      · exact ih (by rw [← h2]; exact h0)
      · have := h1.1
        simp only [logMsg] at this h2 h0
        omega
    | reLogin =>
      have h1 := FetchNewAccessToken_times env tm (logMsg w LogMsg.reachedMaxTTL)
      simp only [runBranch]
      intro h0
      rw [h1.2.2]
      rcases h1.2.1 with h2 | h2
      · exact ih (by rw [← h2]; exact h0)
      · have := h1.1
        simp only [logMsg] at this h2 h0
        omega
    | refresh =>
      have h1 := RefreshAccessToken_times env tm (logMsg w LogMsg.attemptingToRefresh)
      have h3 := selectBranch_refresh_not_cold tm w.clock hb
      simp only [runBranch]
      intro h0
      rw [h1.2.1] at h0
      exact absurd ⟨h0, ih h0⟩ h3
  | drift w' h hclock ih => exact ih

/-- Login once the client id and a client secret are in hand: the remote login is called once,
with that secret, no refresh call is made, the secret is cached, and the result follows the
answer of the remote login. -/
theorem FetchNewAccessToken_with_secret (env : Env) (tm : TokenManager) (w : World)
    (clientId secret : String) (hid : ReadFile w tm.clientIdPath = some clientId)
    (hs : clientSecretFor tm w = some secret) :
    (∃ pre post, (FetchNewAccessToken env tm w).2.2.trace =
        w.trace ++ pre ++ [Event.loginCall clientId secret] ++ post ∧
      (∀ i s, Event.loginCall i s ∉ pre) ∧ (∀ i s, Event.loginCall i s ∉ post) ∧
      (∀ t, Event.refreshCall t ∉ pre) ∧ (∀ t, Event.refreshCall t ∉ post)) ∧
    (FetchNewAccessToken env tm w).2.1.cachedClientSecret = secret ∧
    (∀ resp, env.login clientId secret = Except.ok resp →
      5 * Second < wrap64 (resp.AccessTokenTTL * Second) →
      (FetchNewAccessToken env tm w).1 = CallResult.ok ∧
      (FetchNewAccessToken env tm w).2.1.accessToken = resp.AccessToken) ∧
    (∀ resp, env.login clientId secret = Except.ok resp →
      wrap64 (resp.AccessTokenTTL * Second) ≤ 5 * Second →
      (FetchNewAccessToken env tm w).1 = CallResult.exited) ∧
    (∀ e, env.login clientId secret = Except.error e →
      (FetchNewAccessToken env tm w).1 = CallResult.err (AgentError.remote e)) := by
  refine ⟨?_, ?_, ?_, ?_, ?_⟩
  · cases hl : env.login clientId secret with
    | error e =>
      cases hrm : tm.removeClientSecretOnRead with
      | false =>
        refine ⟨[], [], ?_, by simp, by simp, by simp, by simp⟩
        simp [FetchNewAccessToken, hid, hs, hl, hrm]
      | true =>
        refine ⟨[Event.removeFile tm.clientSecretPath], [], ?_, by simp, by simp, by simp,
          by simp⟩
        simp [FetchNewAccessToken, hid, hs, hl, hrm, osRemove]
    | ok resp =>
      by_cases ht : wrap64 (resp.AccessTokenTTL * Second) ≤ 5 * Second
      · cases hrm : tm.removeClientSecretOnRead with
        | false =>
          refine ⟨[], [Event.fatalExit], ?_, by simp, by simp, by simp, by simp⟩
          simp [FetchNewAccessToken, hid, hs, hl, hrm, ht, PrintErrorMessageAndExit]
        | true =>
          refine ⟨[Event.removeFile tm.clientSecretPath], [Event.fatalExit], ?_,
            by simp, by simp, by simp, by simp⟩
          simp [FetchNewAccessToken, hid, hs, hl, hrm, ht, PrintErrorMessageAndExit,
            osRemove]
      · cases hrm : tm.removeClientSecretOnRead with
        | false =>
          refine ⟨[], [Event.notify], ?_, by simp, by simp, by simp, by simp⟩
          simp [FetchNewAccessToken, hid, hs, hl, hrm, ht, SetToken]
        | true =>
          refine ⟨[Event.removeFile tm.clientSecretPath], [Event.notify], ?_,
            by simp, by simp, by simp, by simp⟩
          simp [FetchNewAccessToken, hid, hs, hl, hrm, ht, SetToken, osRemove]
  · cases hl : env.login clientId secret with
    | error e => simp [FetchNewAccessToken, hid, hs, hl]
    | ok resp =>
      by_cases ht : wrap64 (resp.AccessTokenTTL * Second) ≤ 5 * Second
      · simp [FetchNewAccessToken, hid, hs, hl, ht]
      · simp [FetchNewAccessToken, hid, hs, hl, ht, SetToken]
  · intro resp hl ht
    simp [FetchNewAccessToken, hid, hs, hl, not_le.mpr ht, SetToken]
  · intro resp hl ht
    simp [FetchNewAccessToken, hid, hs, hl, ht]
  · intro e hl
    simp [FetchNewAccessToken, hid, hs, hl]

/-- A login never calls the refresh endpoint. -/
theorem FetchNewAccessToken_no_refresh_call (env : Env) (tm : TokenManager) (w : World) :
    ∃ evs, (FetchNewAccessToken env tm w).2.2.trace = w.trace ++ evs ∧
      ∀ t, Event.refreshCall t ∉ evs := by
  cases hid : ReadFile w tm.clientIdPath with
  | none => exact ⟨[], by simp [FetchNewAccessToken, hid], by simp⟩
  | some clientId =>
    cases hs : clientSecretFor tm w with
    | none => exact ⟨[], by simp [FetchNewAccessToken, hid, hs], by simp⟩
    | some secret =>
      obtain ⟨⟨pre, post, ht, -, -, h1, h2⟩, -⟩ :=
        FetchNewAccessToken_with_secret env tm w clientId secret hid hs
      refine ⟨pre ++ [Event.loginCall clientId secret] ++ post, ?_, ?_⟩
      · rw [ht]; simp
      · intro t hmem
        simp only [List.mem_append, List.mem_singleton] at hmem
        rcases hmem with (hmem | hmem) | hmem
        · exact h1 t hmem
        · cases hmem
        · exact h2 t hmem

/-- A refresh starts with the refresh call for the current token and never calls the login
endpoint. -/
theorem RefreshAccessToken_trace (env : Env) (tm : TokenManager) (w : World) :
    ∃ rest, (RefreshAccessToken env tm w).2.2.trace =
        w.trace ++ Event.refreshCall tm.accessToken :: rest ∧
      ∀ i s, Event.loginCall i s ∉ rest := by
  cases hl : env.refresh tm.accessToken with
  | error e => exact ⟨[], by simp [RefreshAccessToken, GetToken, hl], by simp⟩
  | ok resp =>
    exact ⟨[Event.notify], by simp [RefreshAccessToken, GetToken, hl, SetToken], by simp⟩

/-- The events of a cycle are those of its operation followed by events that are no remote
calls. -/
theorem cycle_trace (env : Env) (tm : TokenManager) (w : World) :
    ∃ tail, (cycle env tm w).world.trace =
        (runBranch env (selectBranch tm w.clock) tm w).2.2.trace ++ tail ∧
      (∀ t, Event.refreshCall t ∉ tail) ∧ ∀ i s, Event.loginCall i s ∉ tail := by
  cases hr : (runBranch env (selectBranch tm w.clock) tm w).1 with
  | exited => exact ⟨[], by simp [cycle, hr], by simp, by simp⟩
  | err e =>
    exact ⟨[Event.log (failureLog (selectBranch tm w.clock)), Event.sleep (30 * Second)],
      by simp [cycle, hr, timeSleep, logMsg], by simp, by simp⟩
  | ok =>
    exact ⟨[Event.sleep (sleepAfterSuccess (refreshedTimeBefore tm)
        (runBranch env (selectBranch tm w.clock) tm w).2.1)],
      by simp [cycle, hr, timeSleep], by simp, by simp⟩

/-- A cycle whose arm runs `FetchNewAccessToken` leaves the manager that call leaves and makes
no refresh call. -/
theorem cycle_login_arm (env : Env) (tm : TokenManager) (w : World) (m : LogMsg)
    (hb : runBranch env (selectBranch tm w.clock) tm w = FetchNewAccessToken env tm (logMsg w m)) :
    (cycle env tm w).tm = (FetchNewAccessToken env tm (logMsg w m)).2.1 ∧
    ∃ evs, (cycle env tm w).world.trace = w.trace ++ evs ∧
      ∀ t, Event.refreshCall t ∉ evs := by
  obtain ⟨tail, ht, h1, -⟩ := cycle_trace env tm w
  obtain ⟨evs, he, h2⟩ := FetchNewAccessToken_no_refresh_call env tm (logMsg w m)
  refine ⟨by rw [cycle_tm, hb], Event.log m :: (evs ++ tail), ?_, ?_⟩
  · rw [ht, hb, he]; simp [logMsg]
  · intro t hmem
    simp only [List.mem_cons, List.mem_append] at hmem
    rcases hmem with hmem | hmem | hmem
    · cases hmem
    · exact h2 t hmem
    · exact h1 t hmem

/-- C3 (amended): in a reachable state a cycle with fetchedAt unset logs in: it takes the cold
login arm, the manager after the cycle is the one `FetchNewAccessToken` leaves, and no refresh
call is made; with fetchedAt set and now strictly later than fetchedAt + maxTTL - 5 s it logs
in through the forced login arm, in the same sense; with fetchedAt set and now at or before
that instant (equality included) it refreshes: the manager after the cycle is the one
`RefreshAccessToken` leaves, the cycle begins with the refresh call for the current token, and
no login call is made. -/
theorem branch_selection (env : Env) (tm : TokenManager) (w : World)
    (hreach : Reachable tm w) :
    (tm.accessTokenFetchedTime = 0 →
      (cycle env tm w).branch = Branch.initLogin ∧
      (cycle env tm w).tm =
        (FetchNewAccessToken env tm (logMsg w LogMsg.attemptingToAuthenticate)).2.1 ∧
      ∃ evs, (cycle env tm w).world.trace = w.trace ++ evs ∧
        ∀ t, Event.refreshCall t ∉ evs) ∧
    (tm.accessTokenFetchedTime ≠ 0 → accessTokenMaxTTLExpiresInTime tm < w.clock →
      (cycle env tm w).branch = Branch.reLogin ∧
      (cycle env tm w).tm = (FetchNewAccessToken env tm (logMsg w LogMsg.reachedMaxTTL)).2.1 ∧
      ∃ evs, (cycle env tm w).world.trace = w.trace ++ evs ∧
        ∀ t, Event.refreshCall t ∉ evs) ∧
    (tm.accessTokenFetchedTime ≠ 0 → w.clock ≤ accessTokenMaxTTLExpiresInTime tm →
      (cycle env tm w).branch = Branch.refresh ∧
      (cycle env tm w).tm =
        (RefreshAccessToken env tm (logMsg w LogMsg.attemptingToRefresh)).2.1 ∧
      ∃ rest, (cycle env tm w).world.trace =
          w.trace ++ Event.log LogMsg.attemptingToRefresh ::
            Event.refreshCall tm.accessToken :: rest ∧
        ∀ i s, Event.loginCall i s ∉ rest) ∧
    (minInt64 + 5 * Second ≤ tm.accessTokenMaxTTL → tm.accessTokenMaxTTL ≤ maxInt64 →
      accessTokenMaxTTLExpiresInTime tm =
        tm.accessTokenFetchedTime + tm.accessTokenMaxTTL - 5 * Second) := by
  have hz := hreach.fetched_zero
  refine ⟨?_, ?_, ?_, ?_⟩
  · intro h0
    have hsel : selectBranch tm w.clock = Branch.initLogin := by
      simp [selectBranch, Time.IsZero, h0, hz h0]
    have hb : runBranch env (selectBranch tm w.clock) tm w =
        FetchNewAccessToken env tm (logMsg w LogMsg.attemptingToAuthenticate) := by
      rw [hsel]; rfl
    exact ⟨by rw [cycle_branch, hsel], cycle_login_arm env tm w _ hb⟩
  · intro h0 hlt
    have hsel : selectBranch tm w.clock = Branch.reLogin := by
      simp [selectBranch, Time.IsZero, h0, Time.After, hlt]
    have hb : runBranch env (selectBranch tm w.clock) tm w =
        FetchNewAccessToken env tm (logMsg w LogMsg.reachedMaxTTL) := by
      rw [hsel]; rfl
    exact ⟨by rw [cycle_branch, hsel], cycle_login_arm env tm w _ hb⟩
  · intro h0 hle
    have hsel : selectBranch tm w.clock = Branch.refresh := by
      simp [selectBranch, Time.IsZero, h0, Time.After, not_lt.mpr hle]
    have hb : runBranch env (selectBranch tm w.clock) tm w =
        RefreshAccessToken env tm (logMsg w LogMsg.attemptingToRefresh) := by
      rw [hsel]; rfl
    obtain ⟨tail, ht, -, h1⟩ := cycle_trace env tm w
    obtain ⟨rest, he, h2⟩ :=
      RefreshAccessToken_trace env tm (logMsg w LogMsg.attemptingToRefresh)
    refine ⟨by rw [cycle_branch, hsel], by rw [cycle_tm, hb], rest ++ tail, ?_, ?_⟩
    · rw [ht, hb, he]; simp [logMsg]
    · intro i s hmem
      rcases List.mem_append.mp hmem with hmem | hmem
      · exact h2 i s hmem
      · exact h1 i s hmem
  · intro h1 h2
    simp only [accessTokenMaxTTLExpiresInTime, Time.Add, wrap64, minInt64, maxInt64,
      Second] at *
    omega

/-- C4 (amended): every successful login sets fetchedAt to the time the login completed and
leaves refreshedAt exactly as it was: unset if it was unset, and still the time of the
earlier refresh if one had set it. -/
theorem login_sets_fetched_keeps_refreshed (env : Env) (tm : TokenManager) (w : World)
    (hok : (FetchNewAccessToken env tm w).1 = CallResult.ok) :
    (FetchNewAccessToken env tm w).2.1.accessTokenFetchedTime = w.clock + env.opLatency ∧
    (FetchNewAccessToken env tm w).2.2.clock = w.clock + env.opLatency ∧
    (FetchNewAccessToken env tm w).2.1.accessTokenRefreshedTime =
      tm.accessTokenRefreshedTime := by
  obtain ⟨clientId, clientSecret, resp, -, -, -, -, htm, hck⟩ :=
    FetchNewAccessToken_ok_inv env tm w hok
  rw [htm, hck]
  exact ⟨rfl, rfl, rfl⟩

/-- C7 (amended): for a login with a readable client id file. A secret read from the file is
sent to the remote login and replaces the cache, also when it is empty. If the secret file
cannot be read and the cache is not empty, the remote login is called once, with exactly the
cached secret, the cache is kept, and the call succeeds whenever the remote login accepts it
with a TTL above 5 s (it terminates the process for a TTL of 5 s or less and returns the
error of a rejected login). If the secret file cannot be read and the cache is empty, the
call returns an error and does nothing else, so the remote login is not called. Nothing else
writes the cache: a login that cannot read the client id and a refresh leave it as it was.
So the call fails for lack of a secret exactly when the secret file cannot be read and the
cache is empty. -/
theorem login_uses_cached_secret (env : Env) (tm : TokenManager) (w : World)
    (clientId : String) (hid : ReadFile w tm.clientIdPath = some clientId) :
    (∀ s, ReadFile w tm.clientSecretPath = some s →
      (FetchNewAccessToken env tm w).2.1.cachedClientSecret = s ∧
      ∃ pre post, (FetchNewAccessToken env tm w).2.2.trace =
          w.trace ++ pre ++ [Event.loginCall clientId s] ++ post ∧
        (∀ i s', Event.loginCall i s' ∉ pre) ∧ (∀ i s', Event.loginCall i s' ∉ post)) ∧
    (ReadFile w tm.clientSecretPath = none → tm.cachedClientSecret.length ≠ 0 →
      (∃ pre post, (FetchNewAccessToken env tm w).2.2.trace =
          w.trace ++ pre ++ [Event.loginCall clientId tm.cachedClientSecret] ++ post ∧
        (∀ i s, Event.loginCall i s ∉ pre) ∧ (∀ i s, Event.loginCall i s ∉ post)) ∧
      (FetchNewAccessToken env tm w).2.1.cachedClientSecret = tm.cachedClientSecret ∧
      (∀ resp, env.login clientId tm.cachedClientSecret = Except.ok resp →
        5 * Second < wrap64 (resp.AccessTokenTTL * Second) →
        (FetchNewAccessToken env tm w).1 = CallResult.ok ∧
        (FetchNewAccessToken env tm w).2.1.accessToken = resp.AccessToken) ∧
      (∀ resp, env.login clientId tm.cachedClientSecret = Except.ok resp →
        wrap64 (resp.AccessTokenTTL * Second) ≤ 5 * Second →
        (FetchNewAccessToken env tm w).1 = CallResult.exited) ∧
      (∀ e, env.login clientId tm.cachedClientSecret = Except.error e →
        (FetchNewAccessToken env tm w).1 = CallResult.err (AgentError.remote e))) ∧
    (ReadFile w tm.clientSecretPath = none → tm.cachedClientSecret.length = 0 →
      FetchNewAccessToken env tm w = (CallResult.err AgentError.noClientSecret, tm, w)) ∧
    (∀ w0 : World, ReadFile w0 tm.clientIdPath = none →
      FetchNewAccessToken env tm w0 = (CallResult.err AgentError.clientIdUnreadable, tm, w0)) ∧
    (∀ w0 : World, (RefreshAccessToken env tm w0).2.1.cachedClientSecret =
      tm.cachedClientSecret) ∧
    ((FetchNewAccessToken env tm w).1 = CallResult.err AgentError.noClientSecret ↔
      (ReadFile w tm.clientSecretPath = none ∧ tm.cachedClientSecret.length = 0)) := by
  refine ⟨?_, ?_, ?_, ?_, ?_, ?_⟩
  · intro s hs
    have hsec : clientSecretFor tm w = some s := by simp [clientSecretFor, hs]
    obtain ⟨⟨pre, post, ht, h1, h2, -, -⟩, hc, -⟩ :=
      FetchNewAccessToken_with_secret env tm w clientId s hid hsec
    exact ⟨hc, pre, post, ht, h1, h2⟩
  · intro hs hne
    have hsec : clientSecretFor tm w = some tm.cachedClientSecret := by
      simp [clientSecretFor, hs, hne]
    obtain ⟨⟨pre, post, ht, h1, h2, -, -⟩, hc, hok, hexit, herr⟩ :=
      FetchNewAccessToken_with_secret env tm w clientId tm.cachedClientSecret hid hsec
    exact ⟨⟨pre, post, ht, h1, h2⟩, hc, hok, hexit, herr⟩
  · intro hs h0
    have hsec : clientSecretFor tm w = none := by simp [clientSecretFor, hs, h0]
    simp [FetchNewAccessToken, hid, hsec]
  · intro w0 h0
    simp [FetchNewAccessToken, h0]
  · intro w0
    cases hl : env.refresh tm.accessToken with
    | error e => simp [RefreshAccessToken, GetToken, hl]
    | ok resp => simp [RefreshAccessToken, GetToken, hl, SetToken]
  · constructor
    · intro herr
      have hnone : clientSecretFor tm w = none := by
        cases hsec : clientSecretFor tm w with
        | none => rfl
        | some secret =>
          obtain ⟨-, -, hok, hexit, hrem⟩ :=
            FetchNewAccessToken_with_secret env tm w clientId secret hid hsec
          cases hl : env.login clientId secret with
          | error e =>
            rw [hrem e hl] at herr
            simp at herr
          | ok resp =>
            by_cases ht : wrap64 (resp.AccessTokenTTL * Second) ≤ 5 * Second
            · rw [hexit resp hl ht] at herr
              simp at herr
            · rw [(hok resp hl (not_le.mp ht)).1] at herr
              simp at herr
      unfold clientSecretFor at hnone
      cases hs : ReadFile w tm.clientSecretPath with
      | some s => simp [hs] at hnone
      | none =>
        by_cases h0 : tm.cachedClientSecret.length = 0
        · exact ⟨rfl, h0⟩
        · simp [hs, h0] at hnone
    · rintro ⟨hs, h0⟩
      have hsec : clientSecretFor tm w = none := by simp [clientSecretFor, hs, h0]
      simp [FetchNewAccessToken, hid, hsec]

/-- A login that returns an error leaves the credential as it was and neither notifies nor
sleeps. -/
theorem FetchNewAccessToken_err_inv (env : Env) (tm : TokenManager) (w : World)
    (e : AgentError) (h : (FetchNewAccessToken env tm w).1 = CallResult.err e) :
    (FetchNewAccessToken env tm w).2.1.accessToken = tm.accessToken ∧
    (FetchNewAccessToken env tm w).2.1.accessTokenTTL = tm.accessTokenTTL ∧
    (FetchNewAccessToken env tm w).2.1.accessTokenMaxTTL = tm.accessTokenMaxTTL ∧
    (FetchNewAccessToken env tm w).2.1.accessTokenFetchedTime = tm.accessTokenFetchedTime ∧
    (FetchNewAccessToken env tm w).2.1.accessTokenRefreshedTime =
      tm.accessTokenRefreshedTime ∧
    ∃ evs, (FetchNewAccessToken env tm w).2.2.trace = w.trace ++ evs ∧ Event.notify ∉ evs ∧
      ∀ d, Event.sleep d ∉ evs := by
  cases hid : ReadFile w tm.clientIdPath with
  | none =>
    have hr : FetchNewAccessToken env tm w =
        (CallResult.err AgentError.clientIdUnreadable, tm, w) := by
      simp [FetchNewAccessToken, hid]
    rw [hr]
    exact ⟨rfl, rfl, rfl, rfl, rfl, [], by simp, by simp, by simp⟩
  | some clientId =>
    cases hs : clientSecretFor tm w with
    | none =>
      have hr : FetchNewAccessToken env tm w =
          (CallResult.err AgentError.noClientSecret, tm, w) := by
        simp [FetchNewAccessToken, hid, hs]
      rw [hr]
      exact ⟨rfl, rfl, rfl, rfl, rfl, [], by simp, by simp, by simp⟩
    | some clientSecret =>
      cases hl : env.login clientId clientSecret with
      | error e =>
        cases hrm : tm.removeClientSecretOnRead with
        | false =>
          refine ⟨?_, ?_, ?_, ?_, ?_, [Event.loginCall clientId clientSecret], ?_,
            by simp, by simp⟩ <;> simp [FetchNewAccessToken, hid, hs, hl, hrm]
        | true =>
          refine ⟨?_, ?_, ?_, ?_, ?_,
            [Event.removeFile tm.clientSecretPath, Event.loginCall clientId clientSecret], ?_,
            by simp, by simp⟩ <;> simp [FetchNewAccessToken, hid, hs, hl, hrm, osRemove]
      | ok resp =>
        by_cases ht : wrap64 (resp.AccessTokenTTL * Second) ≤ 5 * Second
        · simp [FetchNewAccessToken, hid, hs, hl, ht] at h
        · simp [FetchNewAccessToken, hid, hs, hl, ht] at h

/-- A refresh that returns an error leaves the manager as it was and neither notifies nor
sleeps. -/
theorem RefreshAccessToken_err_inv (env : Env) (tm : TokenManager) (w : World)
    (e : AgentError) (h : (RefreshAccessToken env tm w).1 = CallResult.err e) :
    (RefreshAccessToken env tm w).2.1 = tm ∧
    ∃ evs, (RefreshAccessToken env tm w).2.2.trace = w.trace ++ evs ∧ Event.notify ∉ evs ∧
      ∀ d, Event.sleep d ∉ evs := by
  cases hl : env.refresh tm.accessToken with
  | error e =>
    refine ⟨?_, [Event.refreshCall tm.accessToken], ?_, by simp, by simp⟩ <;>
      simp [RefreshAccessToken, GetToken, hl]
  | ok resp => simp [RefreshAccessToken, GetToken, hl] at h

/-- An arm whose operation returns an error leaves the credential as it was and neither
notifies nor sleeps. -/
theorem runBranch_err_inv (env : Env) (b : Branch) (tm : TokenManager) (w : World)
    (e : AgentError) (h : (runBranch env b tm w).1 = CallResult.err e) :
    (runBranch env b tm w).2.1.accessToken = tm.accessToken ∧
    (runBranch env b tm w).2.1.accessTokenTTL = tm.accessTokenTTL ∧
    (runBranch env b tm w).2.1.accessTokenMaxTTL = tm.accessTokenMaxTTL ∧
    (runBranch env b tm w).2.1.accessTokenFetchedTime = tm.accessTokenFetchedTime ∧
    (runBranch env b tm w).2.1.accessTokenRefreshedTime = tm.accessTokenRefreshedTime ∧
    ∃ evs, (runBranch env b tm w).2.2.trace = w.trace ++ evs ∧ Event.notify ∉ evs ∧
      ∀ d, Event.sleep d ∉ evs := by
  cases b with
  | initLogin =>
    obtain ⟨h1, h2, h3, h4, h5, evs, h6, h7, h8⟩ := FetchNewAccessToken_err_inv env tm _ e h
    refine ⟨h1, h2, h3, h4, h5, Event.log LogMsg.attemptingToAuthenticate :: evs, ?_, ?_, ?_⟩
    · show (FetchNewAccessToken env tm _).2.2.trace = _
      rw [h6]
      simp [logMsg]
    · simpa using h7
    · simpa using h8
  | reLogin =>
    obtain ⟨h1, h2, h3, h4, h5, evs, h6, h7, h8⟩ := FetchNewAccessToken_err_inv env tm _ e h
    refine ⟨h1, h2, h3, h4, h5, Event.log LogMsg.reachedMaxTTL :: evs, ?_, ?_, ?_⟩
    · show (FetchNewAccessToken env tm _).2.2.trace = _
      rw [h6]
      simp [logMsg]
    · simpa using h7
    · simpa using h8
  | refresh =>
    obtain ⟨h1, evs, h6, h7, h8⟩ := RefreshAccessToken_err_inv env tm _ e h
    simp only [runBranch]
    rw [h1]
    refine ⟨rfl, rfl, rfl, rfl, rfl, Event.log LogMsg.attemptingToRefresh :: evs, ?_, ?_, ?_⟩
    · rw [h6]
      simp [logMsg]
    · simpa using h7
    · simpa using h8

/-- C8: if the operation chosen by a cycle returns an error, the cycle ends as a retry, the
credential (token, ttl, maxTTL, fetchedAt, refreshedAt) is what it was, no notification is
sent, and the only sleep of the cycle is one of exactly 30 s, its last event; the loop then
goes on with the next cycle on that state, whose branch decision is the one made for the
unchanged credential at the clock after the sleep. -/
theorem failed_operation_retries (env : Env) (tm : TokenManager) (w : World) (e : AgentError)
    (hfail : (runBranch env (selectBranch tm w.clock) tm w).1 = CallResult.err e) :
    (cycle env tm w).outcome = CycleOutcome.retried e ∧
    (cycle env tm w).tm.accessToken = tm.accessToken ∧
    (cycle env tm w).tm.accessTokenTTL = tm.accessTokenTTL ∧
    (cycle env tm w).tm.accessTokenMaxTTL = tm.accessTokenMaxTTL ∧
    (cycle env tm w).tm.accessTokenFetchedTime = tm.accessTokenFetchedTime ∧
    (cycle env tm w).tm.accessTokenRefreshedTime = tm.accessTokenRefreshedTime ∧
    (∃ evs, (cycle env tm w).world.trace = w.trace ++ evs ++ [Event.sleep (30 * Second)] ∧
      Event.notify ∉ evs ∧ ∀ d, Event.sleep d ∉ evs) ∧
    (cycle env tm w).world.clock =
      (runBranch env (selectBranch tm w.clock) tm w).2.2.clock + 30 * Second + env.wakeLag ∧
    (∀ envs : List Env, ManageTokenLifecycle (env :: envs) tm w =
      ManageTokenLifecycle envs (cycle env tm w).tm (cycle env tm w).world) ∧
    (∀ (env' : Env) (envs : List Env),
      (cycle env' (cycle env tm w).tm (cycle env tm w).world).outcome ≠ CycleOutcome.exited →
      ManageTokenLifecycle (env :: env' :: envs) tm w =
        ManageTokenLifecycle envs
          (cycle env' (cycle env tm w).tm (cycle env tm w).world).tm
          (cycle env' (cycle env tm w).tm (cycle env tm w).world).world) ∧
    (∀ env' : Env, (cycle env' (cycle env tm w).tm (cycle env tm w).world).branch =
      selectBranch tm (cycle env tm w).world.clock) ∧
    (∀ now : Int, selectBranch (cycle env tm w).tm now = selectBranch tm now) := by
  have hbase : (cycle env tm w).outcome = CycleOutcome.retried e ∧
      (cycle env tm w).tm.accessToken = tm.accessToken ∧
      (cycle env tm w).tm.accessTokenTTL = tm.accessTokenTTL ∧
      (cycle env tm w).tm.accessTokenMaxTTL = tm.accessTokenMaxTTL ∧
      (cycle env tm w).tm.accessTokenFetchedTime = tm.accessTokenFetchedTime ∧
      (cycle env tm w).tm.accessTokenRefreshedTime = tm.accessTokenRefreshedTime ∧
      (∃ evs, (cycle env tm w).world.trace =
          w.trace ++ evs ++ [Event.sleep (30 * Second)] ∧
        Event.notify ∉ evs ∧ ∀ d, Event.sleep d ∉ evs) ∧
      (cycle env tm w).world.clock =
        (runBranch env (selectBranch tm w.clock) tm w).2.2.clock + 30 * Second +
          env.wakeLag := by
    obtain ⟨h1, h2, h3, h4, h5, evs, h6, h7, h8⟩ := runBranch_err_inv env _ tm w e hfail
    rw [cycle_tm]
    refine ⟨?_, h1, h2, h3, h4, h5, ?_, ?_⟩
    · simp only [cycle, hfail]
    · refine ⟨evs ++ [Event.log (failureLog (selectBranch tm w.clock))], ?_, ?_, ?_⟩
      · simp only [cycle, hfail, timeSleep, logMsg, h6]; simp
      · simpa using h7
      · simpa using h8
    · simp only [cycle, hfail, timeSleep, logMsg, Second]
      omega
  obtain ⟨h0, h1, h2, h3, h4, h5, h6, h7⟩ := hbase
  have hloop : ∀ envs : List Env, ManageTokenLifecycle (env :: envs) tm w =
      ManageTokenLifecycle envs (cycle env tm w).tm (cycle env tm w).world := by
    intro envs
    simp only [ManageTokenLifecycle, h0]
  have hsel : ∀ now : Int, selectBranch (cycle env tm w).tm now = selectBranch tm now := by
    intro now
    simp only [selectBranch, accessTokenMaxTTLExpiresInTime, h3, h4, h5]
  refine ⟨h0, h1, h2, h3, h4, h5, h6, h7, hloop, ?_, ?_, hsel⟩
  · intro env' envs hrun
    rw [hloop]
    cases ho : (cycle env' (cycle env tm w).tm (cycle env tm w).world).outcome with
    | exited => exact absurd ho hrun
    | retried e' => simp only [ManageTokenLifecycle, ho]
    | slept c d => simp only [ManageTokenLifecycle, ho]
  · intro env'
    rw [cycle_branch, hsel]

/-- Writing one sink does not change which paths refuse writes. -/
theorem writeSink_unwritable (token : String) (w : World) (s : Sink) :
    (writeSink token w s).unwritable = w.unwritable := by
  unfold writeSink ioutilWriteFile logMsg
  by_cases hk : s.Type_ = "file"
  · cases hu : w.unwritable s.Config.Path <;> simp [hk, hu]
  · simp [hk]

/-- The files after one sink: the sink path holds the token when the sink is a file sink
whose write succeeds, every other path is as before. -/
theorem writeSink_files (token : String) (w : World) (s : Sink) (p : String) :
    (writeSink token w s).files p =
      if s.Type_ = "file" ∧ s.Config.Path = p ∧ w.unwritable p = false then some token
      else w.files p := by
  unfold writeSink ioutilWriteFile logMsg
  by_cases hk : s.Type_ = "file"
  · cases hu : w.unwritable s.Config.Path
    · by_cases hp : p = s.Config.Path
      · subst hp
        simp [hk, hu]
      · have hp' : ¬ s.Config.Path = p := fun h => hp h.symm
        simp [hk, hu, hp, hp']
    · by_cases hp : p = s.Config.Path
      · subst hp
        simp [hk, hu]
      · have hp' : ¬ s.Config.Path = p := fun h => hp h.symm
        simp [hk, hu, hp']
  · simp [hk]

/-- The events of one sink contain exactly one write for a file sink and none otherwise. -/
theorem writeSink_trace (token : String) (w : World) (s : Sink) :
    ∃ evs, (writeSink token w s).trace = w.trace ++ evs ∧
      evs.filter Event.isWrite =
        if s.Type_ = "file" then [Event.writeFile s.Config.Path token] else [] := by
  unfold writeSink ioutilWriteFile logMsg
  by_cases hk : s.Type_ = "file"
  · cases hu : w.unwritable s.Config.Path
    · exact ⟨[Event.writeFile s.Config.Path token,
        Event.log (LogMsg.savedToSink s.Config.Path)], by simp [hk, hu],
        by simp [hk, Event.isWrite]⟩
    · exact ⟨[Event.writeFile s.Config.Path token,
        Event.log (LogMsg.unableToWriteSink s.Config.Path),
        Event.log (LogMsg.savedToSink s.Config.Path)], by simp [hk, hu],
        by simp [hk, Event.isWrite]⟩
  · exact ⟨[Event.log LogMsg.unsupportedSinkType], by simp [hk], by simp [hk, Event.isWrite]⟩

/-- The files and the write events after a whole list of sinks. -/
theorem foldl_writeSink (token : String) (sinks : List Sink) :
    ∀ w : World,
      (sinks.foldl (writeSink token) w).unwritable = w.unwritable ∧
      (∀ p, (sinks.foldl (writeSink token) w).files p =
        if (∃ s ∈ sinks, s.Type_ = "file" ∧ s.Config.Path = p) ∧ w.unwritable p = false
        then some token else w.files p) ∧
      ∃ evs, (sinks.foldl (writeSink token) w).trace = w.trace ++ evs ∧
        evs.filter Event.isWrite =
          (sinks.filter (fun s => decide (s.Type_ = "file"))).map
            (fun s => Event.writeFile s.Config.Path token) := by
  induction sinks with
  | nil =>
    intro w
    exact ⟨rfl, by simp, [], by simp, by simp⟩
  | cons s rest ih =>
    intro w
    obtain ⟨hu, hf, evs, ht, hw⟩ := ih (writeSink token w s)
    obtain ⟨evs0, ht0, hw0⟩ := writeSink_trace token w s
    have hu0 := writeSink_unwritable token w s
    refine ⟨?_, ?_, evs0 ++ evs, ?_, ?_⟩
    · simp only [List.foldl_cons, hu, hu0]
    · intro p
      simp only [List.foldl_cons, hf p, hu0, writeSink_files token w s p]
      by_cases hk : s.Type_ = "file" ∧ s.Config.Path = p
      · cases hup : w.unwritable p <;> simp [hk, hup]
      · by_cases hr : ∃ s ∈ rest, s.Type_ = "file" ∧ s.Config.Path = p
        · cases hup : w.unwritable p
          · have : ¬ (s.Type_ = "file" ∧ s.Config.Path = p ∧ True) := by simpa using hk
            simp [hr, hup, hk]
          · simp [hup]
        · have hk' : ¬ (s.Type_ = "file" ∧ s.Config.Path = p ∧ w.unwritable p = false) :=
            fun h => hk ⟨h.1, h.2.1⟩
          have hall : ¬ ∃ s' ∈ s :: rest, s'.Type_ = "file" ∧ s'.Config.Path = p := by
            rintro ⟨s', hs', h1⟩
            rcases List.mem_cons.mp hs' with h2 | h2
            · exact hk (h2 ▸ h1)
            · exact hr ⟨s', h2, h1⟩
          rw [if_neg (fun h => hr h.1), if_neg hk', if_neg (fun h => hall h.1)]
    · simp only [List.foldl_cons, ht, ht0, List.append_assoc]
    · rw [List.filter_append, hw, hw0]
      by_cases hk : s.Type_ = "file" <;> simp [hk, List.filter_cons]

/-- C9: for every list of sinks and every token, the write events of `WriteTokenToFiles` are,
in order, one write of the current token per sink of type file, whatever writes failed, and
none for any other sink; a path of no file sink is unchanged; a file sink whose path accepts
writes ends up holding the token. -/
theorem sink_fan_out (tm : TokenManager) (w : World) :
    (∃ evs, (WriteTokenToFiles tm w).trace = w.trace ++ evs ∧
      evs.filter Event.isWrite =
        (tm.filePaths.filter (fun s => decide (s.Type_ = "file"))).map
          (fun s => Event.writeFile s.Config.Path tm.accessToken)) ∧
    (∀ p, (∀ s ∈ tm.filePaths, s.Type_ = "file" → s.Config.Path ≠ p) →
      (WriteTokenToFiles tm w).files p = w.files p) ∧
    (∀ s ∈ tm.filePaths, s.Type_ = "file" → w.unwritable s.Config.Path = false →
      (WriteTokenToFiles tm w).files s.Config.Path = some tm.accessToken) := by
  obtain ⟨-, hf, hev⟩ := foldl_writeSink tm.accessToken tm.filePaths w
  refine ⟨hev, ?_, ?_⟩
  · intro p hp
    show (tm.filePaths.foldl (writeSink tm.accessToken) w).files p = _
    rw [hf p, if_neg]
    rintro ⟨⟨s, hs, hk, hpath⟩, -⟩
    exact hp s hs hk hpath
  · intro s hs hk hu
    show (tm.filePaths.foldl (writeSink tm.accessToken) w).files s.Config.Path = _
    rw [hf s.Config.Path, if_pos]
    exact ⟨⟨s, hs, hk, rfl⟩, hu⟩

/-- C10 (amended): for a login or refresh response with ttl t where t * 10^9 does not
overflow: the stored ttl is t seconds; without a maxTTL the stored maxTTL equals the stored
ttl; with a maxTTL m whose m * 10^9 does not overflow either, the stored maxTTL is m
seconds. -/
theorem stored_max_ttl (env : Env) (tm : TokenManager) (w : World)
    (resp : UniversalAuthLoginResponse)
    (hlo : minInt64 ≤ resp.AccessTokenTTL * Second)
    (hhi : resp.AccessTokenTTL * Second ≤ maxInt64) :
    (getMaxTTL resp.AccessTokenTTL none = resp.AccessTokenTTL * Second ∧
      ∀ m, minInt64 ≤ m * Second → m * Second ≤ maxInt64 →
        getMaxTTL resp.AccessTokenTTL (some m) = m * Second) ∧
    (∀ clientId clientSecret, ReadFile w tm.clientIdPath = some clientId →
      clientSecretFor tm w = some clientSecret →
      env.login clientId clientSecret = Except.ok resp →
      5 * Second < resp.AccessTokenTTL * Second →
      (FetchNewAccessToken env tm w).1 = CallResult.ok ∧
      (FetchNewAccessToken env tm w).2.1.accessTokenTTL = resp.AccessTokenTTL * Second ∧
      (resp.AccessTokenMaxTTL = none →
        (FetchNewAccessToken env tm w).2.1.accessTokenMaxTTL =
          (FetchNewAccessToken env tm w).2.1.accessTokenTTL) ∧
      (∀ m, resp.AccessTokenMaxTTL = some m → minInt64 ≤ m * Second →
        m * Second ≤ maxInt64 →
        (FetchNewAccessToken env tm w).2.1.accessTokenMaxTTL = m * Second)) ∧
    (env.refresh (GetToken tm) = Except.ok resp →
      (RefreshAccessToken env tm w).1 = CallResult.ok ∧
      (RefreshAccessToken env tm w).2.1.accessTokenTTL = resp.AccessTokenTTL * Second ∧
      (resp.AccessTokenMaxTTL = none →
        (RefreshAccessToken env tm w).2.1.accessTokenMaxTTL =
          (RefreshAccessToken env tm w).2.1.accessTokenTTL) ∧
      (∀ m, resp.AccessTokenMaxTTL = some m → minInt64 ≤ m * Second →
        m * Second ≤ maxInt64 →
        (RefreshAccessToken env tm w).2.1.accessTokenMaxTTL = m * Second)) := by
  have hwrap : wrap64 (resp.AccessTokenTTL * Second) = resp.AccessTokenTTL * Second :=
    wrap64_of_range _ hlo hhi
  have hm : ∀ m : Int, minInt64 ≤ m * Second → m * Second ≤ maxInt64 →
      wrap64 (m * Second) = m * Second := fun m h1 h2 => wrap64_of_range _ h1 h2
  refine ⟨⟨hwrap, fun m h1 h2 => hm m h1 h2⟩, ?_, ?_⟩
  · intro clientId clientSecret hid hs hl ht
    have ht' : ¬ wrap64 (resp.AccessTokenTTL * Second) ≤ 5 * Second := by
      rw [hwrap]; exact not_le.mpr ht
    have ht2 : ¬ resp.AccessTokenTTL * Second ≤ 5 * Second := not_le.mpr ht
    refine ⟨?_, ?_, ?_, ?_⟩
    · simp [FetchNewAccessToken, hid, hs, hl, ht', SetToken]
    · simp [FetchNewAccessToken, hid, hs, hl, ht2, SetToken, hwrap]
    · intro hnone
      simp [FetchNewAccessToken, hid, hs, hl, ht', SetToken, hnone, getMaxTTL]
    · intro m hsome h1 h2
      simp [FetchNewAccessToken, hid, hs, hl, ht', SetToken, hsome, getMaxTTL, hm m h1 h2]
  · intro hl
    refine ⟨?_, ?_, ?_, ?_⟩
    · simp [RefreshAccessToken, hl, SetToken]
    · simp [RefreshAccessToken, hl, SetToken, hwrap]
    · intro hnone
      simp [RefreshAccessToken, hl, SetToken, hnone, getMaxTTL]
    · intro m hsome h1 h2
      simp [RefreshAccessToken, hl, SetToken, hsome, getMaxTTL, hm m h1 h2]

/-- The fatal TTL guard of the login path: a login that returns nil stored a TTL above 5 s,
and an accepted login with a TTL of 5 s or less terminates the process without touching the
stored token. -/
theorem FetchNewAccessToken_ttl_guard (env : Env) (tm : TokenManager) (w : World) :
    ((FetchNewAccessToken env tm w).1 = CallResult.ok →
      5 * Second < (FetchNewAccessToken env tm w).2.1.accessTokenTTL) ∧
    (∀ clientId clientSecret resp, ReadFile w tm.clientIdPath = some clientId →
      clientSecretFor tm w = some clientSecret →
      env.login clientId clientSecret = Except.ok resp →
      wrap64 (resp.AccessTokenTTL * Second) ≤ 5 * Second →
      (FetchNewAccessToken env tm w).1 = CallResult.exited ∧
      (FetchNewAccessToken env tm w).2.1.accessToken = tm.accessToken ∧
      (FetchNewAccessToken env tm w).2.1.accessTokenTTL = tm.accessTokenTTL ∧
      (FetchNewAccessToken env tm w).2.2.trace.getLast? = some Event.fatalExit) := by
  constructor
  · intro hok
    obtain ⟨clientId, clientSecret, resp, -, -, -, httl, htm, -⟩ :=
      FetchNewAccessToken_ok_inv env tm w hok
    rw [htm]
    exact httl
  · intro clientId clientSecret resp hid hs hl ht
    simp [FetchNewAccessToken, hid, hs, hl, ht, PrintErrorMessageAndExit]

/-- The demo deployment after four cycles is a reachable state. -/
theorem demoState_four_reachable : Reachable (demoState 4).1 (demoState 4).2 :=
  Reachable.next (demoEnv 11 (some 30))
    (Reachable.next (demoEnv 11 (some 30))
      (Reachable.next (demoEnv 11 (some 30))
        (Reachable.next (demoEnv 11 (some 30))
          (Reachable.start [] [] "client-id" "client-secret" false demoWorld (by decide))
          (by decide))
        (by decide))
      (by decide))
    (by decide)

/-- The demo deployment after a login without max TTL is a reachable state. -/
theorem demoDefaultState_reachable : Reachable demoDefaultState.1 demoDefaultState.2 :=
  Reachable.next (demoEnv 11 none)
    (Reachable.start [] [] "client-id" "client-secret" false demoWorld (by decide))
    (by decide)

/-- The demo deployment after a login with a 6 s TTL is a reachable state. -/
theorem demoSixState_reachable : Reachable demoSixState.1 demoSixState.2 :=
  Reachable.next (demoEnv 6 (some 30))
    (Reachable.start [] [] "client-id" "client-secret" false demoWorld (by decide))
    (by decide)

/-- C1 (counterexample): with ttl = 11 s and maxTTL = 30 s, the refresh performed 24 s after
the login takes the clamped branch, sleeps 6 s and wakes 30 s after the login, which is
later than fetchedAt + maxTTL - 5 s = fetchedAt + 25 s. -/
theorem wake_past_boundary :
    demoClampedCycle.branch = Branch.refresh ∧
    demoClampedCycle.outcome = CycleOutcome.slept true (6 * Second) ∧
    demoClampedCycle.tm.accessTokenTTL = 11 * Second ∧
    demoClampedCycle.tm.accessTokenMaxTTL = 30 * Second ∧
    demoClampedCycle.tm.accessTokenRefreshedTime =
      demoClampedCycle.tm.accessTokenFetchedTime + 24 * Second ∧
    demoClampedCycle.world.clock =
      demoClampedCycle.tm.accessTokenRefreshedTime + 6 * Second ∧
    ¬ (demoClampedCycle.world.clock ≤
      demoClampedCycle.tm.accessTokenFetchedTime + demoClampedCycle.tm.accessTokenMaxTTL
        - 5 * Second) := by
  decide

/-- C1 (witness): the amended bound applied to the refresh 24 s after the login with
ttl = 11 s and maxTTL = 30 s; the wake time is fetchedAt + maxTTL. -/
theorem wake_time_bound_witness :
    (demoState 4).2.clock + (demoEnv 11 (some 30)).opLatency + 6 * Second =
      demoClampedCycle.tm.accessTokenFetchedTime + demoClampedCycle.tm.accessTokenMaxTTL :=
  (wake_time_bound (demoEnv 11 (some 30)) (demoState 4).1 (demoState 4).2 true (6 * Second)
    demoState_four_reachable (by decide) (by decide) (by decide) (by decide)).2.2.1 rfl

/-- C2 (witness): the refresh 24 s after the login with ttl = 11 s and maxTTL = 30 s sleeps
6 s, a positive duration. -/
theorem sleep_after_success_pos_witness :
    demoClampedCycle.world.trace.getLast? = some (Event.sleep (6 * Second)) ∧
      0 < 6 * Second :=
  ⟨(sleep_after_success_pos (demoEnv 11 (some 30)) (demoState 4).1 (demoState 4).2 true
      (6 * Second) demoState_four_reachable (by decide) (by decide) (by decide)
      (by decide)).1,
    (sleep_after_success_pos (demoEnv 11 (some 30)) (demoState 4).1 (demoState 4).2 true
      (6 * Second) demoState_four_reachable (by decide) (by decide) (by decide)
      (by decide)).2.1⟩

/-- C2 (counterexample): in the reachable state 24 s after a login with ttl = 11 s and
maxTTL = 30 s the refresh arm is taken (now is before fetchedAt + 25 s). If the refresh takes
7 s, it completes at offset 31 s and the clamped sleep is -1 s; if it completes at once but
answers maxTTL = 20 s, the clamped sleep is -4 s. In both the stored credential has
ttl > 5 s and maxTTL >= ttl. -/
theorem refresh_sleep_not_positive :
    ((demoState 4).2.clock ≤ accessTokenMaxTTLExpiresInTime (demoState 4).1 ∧
      (cycle demoSlowEnv (demoState 4).1 (demoState 4).2).branch = Branch.refresh ∧
      (cycle demoSlowEnv (demoState 4).1 (demoState 4).2).tm.accessTokenTTL = 11 * Second ∧
      (cycle demoSlowEnv (demoState 4).1 (demoState 4).2).tm.accessTokenMaxTTL =
        30 * Second ∧
      (cycle demoSlowEnv (demoState 4).1 (demoState 4).2).tm.accessTokenRefreshedTime =
        (cycle demoSlowEnv (demoState 4).1 (demoState 4).2).tm.accessTokenFetchedTime +
          31 * Second ∧
      (cycle demoSlowEnv (demoState 4).1 (demoState 4).2).outcome =
        CycleOutcome.slept true (-1 * Second) ∧
      ¬ (0 < -1 * Second)) ∧
    ((cycle (demoEnv 11 (some 20)) (demoState 4).1 (demoState 4).2).branch = Branch.refresh ∧
      (cycle (demoEnv 11 (some 20)) (demoState 4).1 (demoState 4).2).tm.accessTokenTTL =
        11 * Second ∧
      (cycle (demoEnv 11 (some 20)) (demoState 4).1 (demoState 4).2).tm.accessTokenMaxTTL =
        20 * Second ∧
      (cycle (demoEnv 11 (some 20)) (demoState 4).1
          (demoState 4).2).tm.accessTokenRefreshedTime =
        (demoState 4).2.clock ∧
      (cycle (demoEnv 11 (some 20)) (demoState 4).1 (demoState 4).2).outcome =
        CycleOutcome.slept true (-4 * Second) ∧
      ¬ (0 < -4 * Second)) := by
  decide

/-- C6 (witness): with ttl = 11 s and maxTTL = 30 s the cycle after the clamped sleep of the
refresh at offset 24 s takes the forced login arm. -/
theorem clamped_sleep_then_forced_login_witness :
    demoReLoginCycle.branch = Branch.reLogin :=
  clamped_sleep_then_forced_login (demoEnv 11 (some 30)) (demoState 4).1 (demoState 4).2
    (6 * Second) demoState_four_reachable (by decide) (by decide)
    (demoEnv 11 (some 30)) (demoState 5).2 (by decide)

/-- C6 (counterexample): one second after a login with ttl = 6 s a refresh is answered with
ttl = 2^54 + 2 s and no maxTTL; the product with 10^9 wraps to a negative stored ttl, the
cycle takes the clamped branch with a negative sleep, and the cycle that follows takes the
refresh arm and calls refresh again. -/
theorem clamped_sleep_then_refresh :
    demoSixState.1.accessTokenTTL = 6 * Second ∧
    demoSixState.2.clock = demoSixState.1.accessTokenFetchedTime + 1 * Second ∧
    demoWrappedCycle.branch = Branch.refresh ∧
    demoWrappedCycle.tm.accessTokenTTL = -9223372034854775808 ∧
    demoWrappedCycle.outcome = CycleOutcome.slept true (-9223372035854775808) ∧
    demoWrappedCycle.world.clock = demoSixState.2.clock ∧
    (cycle (demoEnv 6 (some 30)) demoWrappedCycle.tm demoWrappedCycle.world).branch =
      Branch.refresh ∧
    (cycle (demoEnv 6 (some 30)) demoWrappedCycle.tm demoWrappedCycle.world).branch ≠
      Branch.reLogin ∧
    (cycle (demoEnv 6 (some 30)) demoWrappedCycle.tm
      demoWrappedCycle.world).world.trace.getLast? ≠ none ∧
    Event.refreshCall "t-huge" ∈
      (cycle (demoEnv 6 (some 30)) demoWrappedCycle.tm demoWrappedCycle.world).world.trace := by
  decide

/-- C3 (counterexample): after a login with ttl = maxTTL = 11 s the first sleep ends exactly
at fetchedAt + maxTTL - 5 s, and the cycle that starts at that instant refreshes instead of
logging in. -/
theorem refresh_at_exact_boundary :
    demoDefaultState.1.accessTokenFetchedTime ≠ 0 ∧
    demoDefaultState.2.clock =
      demoDefaultState.1.accessTokenFetchedTime + demoDefaultState.1.accessTokenMaxTTL
        - 5 * Second ∧
    (cycle (demoEnv 11 none) demoDefaultState.1 demoDefaultState.2).branch = Branch.refresh ∧
    Event.refreshCall "t-login" ∈
      (cycle (demoEnv 11 none) demoDefaultState.1 demoDefaultState.2).world.trace := by
  decide

/-- C3 (witness): after a login with ttl = maxTTL = 11 s the cycle that starts exactly at
fetchedAt + maxTTL - 5 s takes the refresh arm and runs `RefreshAccessToken`. -/
theorem branch_selection_witness :
    (cycle (demoEnv 11 none) demoDefaultState.1 demoDefaultState.2).branch = Branch.refresh ∧
    (cycle (demoEnv 11 none) demoDefaultState.1 demoDefaultState.2).tm =
      (RefreshAccessToken (demoEnv 11 none) demoDefaultState.1
        (logMsg demoDefaultState.2 LogMsg.attemptingToRefresh)).2.1 :=
  ⟨((branch_selection (demoEnv 11 none) demoDefaultState.1 demoDefaultState.2
      demoDefaultState_reachable).2.2.1 (by decide) (by decide)).1,
    ((branch_selection (demoEnv 11 none) demoDefaultState.1 demoDefaultState.2
      demoDefaultState_reachable).2.2.1 (by decide) (by decide)).2.1⟩

/-- C4 (counterexample): with ttl = 11 s and maxTTL = 30 s the forced login at offset 30 s
sets fetchedAt but refreshedAt keeps the time of the refresh at offset 24 s; it is not
cleared. -/
theorem relogin_keeps_refreshed_time :
    (demoState 5).1.accessTokenRefreshedTime = 1024 * Second ∧
    demoReLoginCycle.branch = Branch.reLogin ∧
    demoReLoginCycle.outcome = CycleOutcome.slept false (6 * Second) ∧
    demoReLoginCycle.tm.accessTokenFetchedTime = 1030 * Second ∧
    demoReLoginCycle.tm.accessTokenRefreshedTime = 1024 * Second ∧
    Time.IsZero demoReLoginCycle.tm.accessTokenRefreshedTime = false := by
  decide

/-- C4 (witness): the forced login of the demo run leaves refreshedAt as it was. -/
theorem login_sets_fetched_keeps_refreshed_witness :
    (FetchNewAccessToken (demoEnv 11 (some 30)) (demoState 5).1
        (demoState 5).2).2.1.accessTokenRefreshedTime =
      (demoState 5).1.accessTokenRefreshedTime :=
  (login_sets_fetched_keeps_refreshed (demoEnv 11 (some 30)) (demoState 5).1 (demoState 5).2
    (by decide)).2.2

/-- C5 (failing input): a refresh answered with a TTL of 5 s is stored through SetToken; the
process is not terminated and the loop goes on with a sleep of 0 s. -/
theorem refresh_stores_short_ttl :
    (cycle demoShortRefreshEnv (demoState 1).1 (demoState 1).2).branch = Branch.refresh ∧
    (cycle demoShortRefreshEnv (demoState 1).1 (demoState 1).2).outcome =
      CycleOutcome.slept false 0 ∧
    (cycle demoShortRefreshEnv (demoState 1).1 (demoState 1).2).tm.accessToken = "t-short" ∧
    (cycle demoShortRefreshEnv (demoState 1).1 (demoState 1).2).tm.accessTokenTTL =
      5 * Second ∧
    Event.fatalExit ∉ (cycle demoShortRefreshEnv (demoState 1).1 (demoState 1).2).world.trace ∧
    (RefreshAccessToken demoShortRefreshEnv (demoState 1).1 (demoState 1).2).1 =
      CallResult.ok ∧
    (RefreshAccessToken demoShortRefreshEnv (demoState 1).1
      (demoState 1).2).2.2.trace.getLast? = some Event.notify := by
  decide

/-- C7 (counterexample): first, the first login read the secret s3cret, a later login reads
the secret file when it is empty, which empties the cache, and the login after that, with the
file gone, returns the error for a missing secret without calling the remote login, although
an earlier call had read a non-empty secret. Second, with the file gone and s3cret cached,
the remote login accepts the cached secret with a TTL of 5 s and the call does not succeed:
the process is terminated. -/
theorem cached_secret_overwritten_or_short_ttl :
    ((demoState 1).1.cachedClientSecret = "s3cret" ∧
      ReadFile demoSecretEmptied (demoState 1).1.clientIdPath = some "machine-1" ∧
      ReadFile demoSecretEmptied (demoState 1).1.clientSecretPath = some "" ∧
      demoAfterEmptyRead.cachedClientSecret = "" ∧
      ReadFile demoSecretGone demoAfterEmptyRead.clientIdPath = some "machine-1" ∧
      ReadFile demoSecretGone demoAfterEmptyRead.clientSecretPath = none ∧
      (FetchNewAccessToken (demoEnv 11 (some 30)) demoAfterEmptyRead demoSecretGone).1 =
        CallResult.err AgentError.noClientSecret ∧
      (FetchNewAccessToken (demoEnv 11 (some 30)) demoAfterEmptyRead demoSecretGone).2.2.trace =
        demoSecretGone.trace) ∧
    (ReadFile demoSecretGone (demoState 1).1.clientIdPath = some "machine-1" ∧
      ReadFile demoSecretGone (demoState 1).1.clientSecretPath = none ∧
      (demoEnv 5 (some 30)).login "machine-1" "s3cret" =
        Except.ok
          { AccessToken := "t-login", AccessTokenTTL := 5, AccessTokenMaxTTL := some 30 } ∧
      Event.loginCall "machine-1" "s3cret" ∈
        (FetchNewAccessToken (demoEnv 5 (some 30)) (demoState 1).1 demoSecretGone).2.2.trace ∧
      (FetchNewAccessToken (demoEnv 5 (some 30)) (demoState 1).1 demoSecretGone).1 =
        CallResult.exited ∧
      (FetchNewAccessToken (demoEnv 5 (some 30)) (demoState 1).1 demoSecretGone).1 ≠
        CallResult.ok) :=
  ⟨⟨by decide, by decide, by decide, by decide, by decide, by decide, by decide, by decide⟩,
    ⟨by decide, by decide, rfl, by decide, by decide, by decide⟩⟩

/-- C7 (witness): with the secret file gone after the first login, a second login succeeds
with the cached secret. -/
theorem login_uses_cached_secret_witness :
    (FetchNewAccessToken (demoEnv 11 (some 30)) (demoState 1).1 demoSecretGone).1 =
      CallResult.ok ∧
    (FetchNewAccessToken (demoEnv 11 (some 30)) (demoState 1).1 demoSecretGone).2.1.accessToken =
      "t-login" :=
  ((login_uses_cached_secret (demoEnv 11 (some 30)) (demoState 1).1 demoSecretGone "machine-1"
    (by decide)).2.1 (by decide) (by decide)).2.2.1
    { AccessToken := "t-login", AccessTokenTTL := 11, AccessTokenMaxTTL := some 30 } rfl
    (by decide)

/-- C8 (witness): a refresh against a service that is down ends as a retry, keeps the token,
and the loop runs the next cycle. -/
theorem failed_operation_retries_witness :
    (cycle demoDownEnv (demoState 1).1 (demoState 1).2).outcome =
      CycleOutcome.retried (AgentError.remote "unavailable") ∧
    (cycle demoDownEnv (demoState 1).1 (demoState 1).2).tm.accessToken =
      (demoState 1).1.accessToken ∧
    ManageTokenLifecycle [demoDownEnv, demoEnv 11 (some 30)] (demoState 1).1 (demoState 1).2 =
      ManageTokenLifecycle [demoEnv 11 (some 30)]
        (cycle demoDownEnv (demoState 1).1 (demoState 1).2).tm
        (cycle demoDownEnv (demoState 1).1 (demoState 1).2).world :=
  ⟨(failed_operation_retries demoDownEnv (demoState 1).1 (demoState 1).2
      (AgentError.remote "unavailable") (by decide)).1,
    (failed_operation_retries demoDownEnv (demoState 1).1 (demoState 1).2
      (AgentError.remote "unavailable") (by decide)).2.1,
    (failed_operation_retries demoDownEnv (demoState 1).1 (demoState 1).2
      (AgentError.remote "unavailable") (by decide)).2.2.2.2.2.2.2.2.1
      [demoEnv 11 (some 30)]⟩

/-- Sink fan-out on two file sinks and one sink of another type, the first file sink refusing
the write: both file sinks get one write of the token, the second file holds it, the first
one and the path of the other sink stay absent, and the unsupported type is logged. -/
theorem sink_fan_out_demo :
    (WriteTokenToFiles demoSinkManager demoSinkWorld).trace.filter Event.isWrite =
      [Event.writeFile "/run/a" "t-login", Event.writeFile "/run/b" "t-login"] ∧
    (WriteTokenToFiles demoSinkManager demoSinkWorld).files "/run/a" = none ∧
    (WriteTokenToFiles demoSinkManager demoSinkWorld).files "/run/b" = some "t-login" ∧
    (WriteTokenToFiles demoSinkManager demoSinkWorld).files "/run/s" = none ∧
    Event.log LogMsg.unsupportedSinkType ∈
      (WriteTokenToFiles demoSinkManager demoSinkWorld).trace := by
  decide

/-- C10 (counterexample): a login response with ttl = 11 s and maxTTL = 9223372037 s stores a
negative maxTTL, not 9223372037 s, because m * 10^9 wraps around at 64 bits. -/
theorem max_ttl_wraps_around :
    minInt64 ≤ 11 * Second ∧ 11 * Second ≤ maxInt64 ∧
    (demoEnv 11 (some 9223372037)).login "machine-1" "s3cret" =
      Except.ok { AccessToken := "t-login", AccessTokenTTL := 11,
                  AccessTokenMaxTTL := some 9223372037 } ∧
    (FetchNewAccessToken (demoEnv 11 (some 9223372037)) demoManager demoWorld).1 =
      CallResult.ok ∧
    (FetchNewAccessToken (demoEnv 11 (some 9223372037)) demoManager
      demoWorld).2.1.accessTokenMaxTTL = -9223372036709551616 ∧
    (FetchNewAccessToken (demoEnv 11 (some 9223372037)) demoManager
      demoWorld).2.1.accessTokenMaxTTL ≠ 9223372037 * Second ∧
    getMaxTTL 11 (some 9223372037) ≠ 9223372037 * Second :=
  ⟨by decide, by decide, rfl, by decide, by decide, by decide, by decide⟩

/-- C10 (witness): a login response with ttl = 11 s and no maxTTL stores maxTTL = ttl = 11 s. -/
theorem stored_max_ttl_witness :
    getMaxTTL 11 none = 11 * Second ∧
    (FetchNewAccessToken (demoEnv 11 none) demoManager demoWorld).2.1.accessTokenMaxTTL =
      (FetchNewAccessToken (demoEnv 11 none) demoManager demoWorld).2.1.accessTokenTTL :=
  ⟨(stored_max_ttl (demoEnv 11 none) demoManager demoWorld
      { AccessToken := "t-login", AccessTokenTTL := 11, AccessTokenMaxTTL := none }
      (by decide) (by decide)).1.1,
    ((stored_max_ttl (demoEnv 11 none) demoManager demoWorld
      { AccessToken := "t-login", AccessTokenTTL := 11, AccessTokenMaxTTL := none }
      (by decide) (by decide)).2.1 "machine-1" "s3cret" (by decide) (by decide) rfl
      (by decide)).2.2.1 rfl⟩

end Agent
